import Mathlib

/-!
Verification development for the mymicrops userspace TCP/IP stack.

Shallow embedding of the core TCP engine (`src/tcp.c`), the timer wheel
(`src/net.c`) and the scheduling context (`src/platform/linux/sched.c`).
Machine integers are modelled as `Nat` with explicit `% 2^w` at the points
where the C performs wrapping arithmetic; `struct timeval` values are
modelled as microsecond counts (`gettimeofday` is assumed monotone, which
is how every timer comparison in the source uses it).
-/

set_option autoImplicit false
set_option linter.unusedVariables false

namespace Mymicrops

/-! ## Machine arithmetic helpers

The C source mixes `uint16_t`, `uint32_t` and `size_t` arithmetic.  We model
each wrapping operation explicitly. -/

/-- 32-bit wrapping addition (`uint32_t` + in C). -/
def add32 (a b : Nat) : Nat := (a + b) % 4294967296

/-- 32-bit wrapping subtraction (`uint32_t` - in C). -/
def sub32 (a b : Nat) : Nat := (a % 4294967296 + 4294967296 - b % 4294967296) % 4294967296

/-- 16-bit wrapping addition (`uint16_t` += in C). -/
def add16 (a b : Nat) : Nat := (a + b) % 65536

/-- 16-bit wrapping subtraction (`uint16_t` -= in C). -/
def sub16 (a b : Nat) : Nat := (a % 65536 + 65536 - b % 65536) % 65536

/-- 64-bit wrapping subtraction (`size_t` - in C). -/
def sub64 (a b : Nat) : Nat :=
  (a % 18446744073709551616 + 18446744073709551616 - b % 18446744073709551616) %
    18446744073709551616

/-! ## Data model (`src/tcp.c`) -/

/-- `struct ip_endpoint` (address + port).  `IP_ADDR_ANY` is `0.0.0.0 = 0`. -/
structure IpEndpoint where
  addr : Nat
  port : Nat
deriving DecidableEq

def IP_ADDR_ANY : Nat := 0

/-- TCP header flag bits, `src/tcp.c` lines 16-21. -/
def TCP_FLG_FIN : Nat := 0x01
def TCP_FLG_SYN : Nat := 0x02
def TCP_FLG_RST : Nat := 0x04
def TCP_FLG_PSH : Nat := 0x08
def TCP_FLG_ACK : Nat := 0x10
def TCP_FLG_URG : Nat := 0x20

/-- `TCP_FLG_ISSET(x, y) = ((x & 0x3f) & y) ? 1 : 0`. -/
def tcpFlgIsSet (x y : Nat) : Bool := ((x &&& 0x3f) &&& y) ≠ 0

/-- PCB state codes, `src/tcp.c` lines 28-39. -/
def TCP_PCB_STATE_FREE : Nat := 0
def TCP_PCB_STATE_CLOSED : Nat := 1
def TCP_PCB_STATE_LISTEN : Nat := 2
def TCP_PCB_STATE_SYN_SENT : Nat := 3
def TCP_PCB_STATE_SYN_RECEIVED : Nat := 4
def TCP_PCB_STATE_ESTABLISHED : Nat := 5
def TCP_PCB_STATE_FIN_WAIT1 : Nat := 6
def TCP_PCB_STATE_FIN_WAIT2 : Nat := 7
def TCP_PCB_STATE_CLOSING : Nat := 8
def TCP_PCB_STATE_TIME_WAIT : Nat := 9
def TCP_PCB_STATE_CLOSE_WAIT : Nat := 10
def TCP_PCB_STATE_LAST_ACK : Nat := 11

/-- `TCP_DEFAULT_RTO` (microseconds). -/
def TCP_DEFAULT_RTO : Nat := 200000
/-- `TCP_RETRANSMIT_DEADLINE` (seconds). -/
def TCP_RETRANSMIT_DEADLINE : Nat := 12

/-- `struct tcp_queue_entry`: one retransmission-queue entry.  `first` and
`last` are microsecond timestamps. -/
structure TcpQueueEntry where
  first : Nat
  last : Nat
  rto : Nat
  seq : Nat
  flg : Nat
  data : List Nat
deriving DecidableEq

/-- Send-side variables `pcb->snd`. -/
structure SndVars where
  nxt : Nat
  una : Nat
  wnd : Nat
  up : Nat
  wl1 : Nat
  wl2 : Nat
deriving DecidableEq

/-- Receive-side variables `pcb->rcv`. -/
structure RcvVars where
  nxt : Nat
  wnd : Nat
  up : Nat
deriving DecidableEq

/-- `struct tcp_pcb`.  The C field `local` is a Lean keyword, so it is named
`loc` here.  `ctxWc` is the waiter count of the PCB's `sched_ctx`
(`ctx.wc` in `src/platform/linux/sched.c`); `tcp_pcb_release` consults it
through `sched_ctx_destroy`.  The receive buffer `buf` is 16 bytes
(`uint8_t buf[16]`). -/
structure TcpPcb where
  active : Nat
  state : Nat
  loc : IpEndpoint
  foreign : IpEndpoint
  snd : SndVars
  iss : Nat
  rcv : RcvVars
  irs : Nat
  mtu : Nat
  mss : Nat
  startTime : Nat
  timeWait : Nat
  buf : List Nat
  ctxWc : Nat
  queue : List TcpQueueEntry
deriving DecidableEq

/-- `struct tcp_segment_info` built by `tcp_input`:  `len` counts the payload
plus one per SYN and per FIN. -/
structure TcpSegmentInfo where
  seq : Nat
  ack : Nat
  len : Nat
  wnd : Nat
  up : Nat
deriving DecidableEq

/-- Arguments of one `tcp_output_segment` call: the segment handed to
`ip_output` (byte building and checksumming are modelled separately for the
checksum claim). -/
structure OutSeg where
  seq : Nat
  ack : Nat
  flg : Nat
  wnd : Nat
  payload : List Nat
  loc : IpEndpoint
  foreign : IpEndpoint
deriving DecidableEq

/-! ## PCB selection (`tcp_pcb_select`, `src/tcp.c` lines 195-219) -/

/-- Local-endpoint match: `(pcb->local.addr == IP_ADDR_ANY || pcb->local.addr
== local->addr) && pcb->local.port == local->port`. -/
def localMatch (p : TcpPcb) (l : IpEndpoint) : Bool :=
  (p.loc.addr == IP_ADDR_ANY || p.loc.addr == l.addr) && p.loc.port == l.port

/-- Exact foreign-endpoint match. -/
def foreignExact (p : TcpPcb) (f : IpEndpoint) : Bool :=
  p.foreign.addr == f.addr && p.foreign.port == f.port

/-- `pcb->state == TCP_PCB_STATE_LISTEN` with wildcard foreign
(`foreign.addr == IP_ADDR_ANY && foreign.port == 0`). -/
def listenWildcard (p : TcpPcb) : Bool :=
  p.state == TCP_PCB_STATE_LISTEN && p.foreign.addr == IP_ADDR_ANY && p.foreign.port == 0

/-- The loop of `tcp_pcb_select`: walks the table in order; returns at once
on a full match (or, when called without a foreign endpoint, on any local
match), and keeps overwriting `listen_pcb` for each wildcard LISTEN match. -/
def tcp_pcb_select_go (l : IpEndpoint) (f : Option IpEndpoint) :
    List TcpPcb → Option TcpPcb → Option TcpPcb
  | [], listenPcb => listenPcb
  | p :: rest, listenPcb =>
    if localMatch p l then
      match f with
      | none => some p
      | some fe =>
        if foreignExact p fe then some p
        else if listenWildcard p then tcp_pcb_select_go l f rest (some p)
        else tcp_pcb_select_go l f rest listenPcb
    else tcp_pcb_select_go l f rest listenPcb

/-- `tcp_pcb_select(local, foreign)` over the PCB table in table order. -/
def tcp_pcb_select (pcbs : List TcpPcb) (l : IpEndpoint) (f : Option IpEndpoint) :
    Option TcpPcb :=
  tcp_pcb_select_go l f pcbs none

/-- The selection rule as the spec words it, except that ties among wildcard
LISTEN PCBs go to the LAST match in table order (the amended claim): a full
match wins, otherwise the last local-matching wildcard-LISTEN PCB. -/
def tcp_pcb_select_spec (pcbs : List TcpPcb) (l : IpEndpoint) (f : IpEndpoint) :
    Option TcpPcb :=
  match pcbs.find? (fun p => localMatch p l && foreignExact p f) with
  | some p => some p
  | none => pcbs.foldl (fun acc p => if localMatch p l && listenWildcard p then some p else acc)
      none

/-! ## Segment output and the retransmission queue
(`src/tcp.c` lines 239-380)

`tcp_output_segment` builds the wire bytes and hands them to `ip_output`;
for state-machine purposes we record its arguments as an `OutSeg` (the byte
building and checksum are modelled separately below for the checksum claim).
The retransmission queue (`struct queue_head` from `util.c`, which is not
under `src/`; the spec describes it as a plain FIFO) is a Lean list, front
first. -/

/-- `tcp_retransmit_queue_add`: queue an entry with `rto = TCP_DEFAULT_RTO`
and `first = last = now` (`memory_alloc`/`queue_push` failures are not
modelled). -/
def tcp_retransmit_queue_add (now : Nat) (pcb : TcpPcb) (seq flg : Nat) (data : List Nat) :
    TcpPcb :=
  { pcb with queue := pcb.queue ++ [⟨now, now, TCP_DEFAULT_RTO, seq, flg, data⟩] }

/-- `tcp_retransmit_queue_cleanup`: pop entries from the front while
`entry->seq < pcb->snd.una`. -/
def tcp_retransmit_queue_cleanup (pcb : TcpPcb) : TcpPcb :=
  { pcb with queue := pcb.queue.dropWhile (fun e => e.seq < pcb.snd.una) }

/-- `tcp_retransmit_queue_emit` on one entry.  Returns the updated pcb, the
updated entry (entries stay in the queue; `queue_foreach` mutates them in
place), the segments sent and the number of `sched_wakeup` calls.
The deadline test is `diff.tv_sec >= TCP_RETRANSMIT_DEADLINE` after
`timersub(&now, &entry->first, &diff)`; the retransmit test is
`timercmp(&now, &timeout, >)` with `timeout = last + rto`, i.e. strictly
greater.  Note the deadline branch only sets the state to CLOSED and wakes:
it does not call `tcp_pcb_release`. -/
def tcp_retransmit_queue_emit (now : Nat) (pcb : TcpPcb) (e : TcpQueueEntry) :
    TcpPcb × TcpQueueEntry × List OutSeg × Nat :=
  if TCP_RETRANSMIT_DEADLINE ≤ (now - e.first) / 1000000 then
    ({ pcb with state := TCP_PCB_STATE_CLOSED }, e, [], 1)
  else if e.last + e.rto < now then
    (pcb, { e with last := now, rto := e.rto * 2 },
      [⟨e.seq, pcb.rcv.nxt, e.flg, pcb.rcv.wnd, e.data, pcb.loc, pcb.foreign⟩], 0)
  else
    (pcb, e, [], 0)

/-- The fold performed by `queue_foreach` in `tcp_retransmit_queue_emit_all`:
entries are visited front to back, each seeing the pcb as left by its
predecessors. -/
def tcp_retransmit_emit_fold (now : Nat) (pcb : TcpPcb) :
    List TcpQueueEntry → TcpPcb × List TcpQueueEntry × List OutSeg × Nat
  | [] => (pcb, [], [], 0)
  | e :: rest =>
    let r := tcp_retransmit_queue_emit now pcb e
    let rr := tcp_retransmit_emit_fold now r.1 rest
    (rr.1, r.2.1 :: rr.2.1, r.2.2.1 ++ rr.2.2.1, r.2.2.2 + rr.2.2.2)

/-- `tcp_retransmit_queue_emit_all(pcb)`. -/
def tcp_retransmit_queue_emit_all (now : Nat) (pcb : TcpPcb) :
    TcpPcb × List OutSeg × Nat :=
  let r := tcp_retransmit_emit_fold now pcb pcb.queue
  ({ r.1 with queue := r.2.1 }, r.2.2.1, r.2.2.2)

/-- `tcp_retransmit_timer`: for every PCB in the table, skip FREE slots and
run `tcp_retransmit_queue_emit_all` on the rest.  Returns the updated table,
all segments sent and the wakeup count. -/
def tcp_retransmit_timer (now : Nat) : List TcpPcb → List TcpPcb × List OutSeg × Nat
  | [] => ([], [], 0)
  | pcb :: rest =>
    let hd :=
      if pcb.state = TCP_PCB_STATE_FREE then (pcb, ([] : List OutSeg), 0)
      else tcp_retransmit_queue_emit_all now pcb
    let tl := tcp_retransmit_timer now rest
    (hd.1 :: tl.1, hd.2.1 ++ tl.2.1, hd.2.2 + tl.2.2)

/-- `tcp_output(pcb, flg, data, len)`: SYN segments use `iss`, others
`snd.nxt`; segments consuming sequence space (SYN, FIN or payload) are added
to the retransmission queue; the segment itself carries the PCB's current
`rcv.nxt` and `rcv.wnd`. -/
def tcp_output (now : Nat) (pcb : TcpPcb) (flg : Nat) (data : List Nat) :
    TcpPcb × OutSeg :=
  let seq := if tcpFlgIsSet flg TCP_FLG_SYN then pcb.iss else pcb.snd.nxt
  let pcb' :=
    if tcpFlgIsSet flg (TCP_FLG_SYN ||| TCP_FLG_FIN) || data.length ≠ 0 then
      tcp_retransmit_queue_add now pcb seq flg data
    else pcb
  (pcb', ⟨seq, pcb'.rcv.nxt, flg, pcb'.rcv.wnd, data, pcb'.loc, pcb'.foreign⟩)

/-- `tcp_pcb_release`: `sched_ctx_destroy` fails while waiters remain, in
which case the PCB is only woken and kept; otherwise the slot is zeroed
(`state` becomes FREE), modelled as `none`.  Returns the slot and the number
of wakeups it performed. -/
def tcp_pcb_release (pcb : TcpPcb) : Option TcpPcb × Nat :=
  if pcb.ctxWc ≠ 0 then (some pcb, 1) else (none, 0)

/-! ## Segment arrival (`tcp_segment_arrives`, `src/tcp.c` lines 383-726) -/

/-- `errorf` signals surfaced by `tcp_segment_arrives`. -/
inductive TcpSignal where
  | connectionReset
  | connectionRefused
deriving DecidableEq

/-- Observable outcome of one `tcp_segment_arrives` call on the selected
PCB.  `pcb = none` means the slot was freed by `tcp_pcb_release`.  `copies`
records each `memcpy` into the 16-byte receive buffer as
(destination offset, length); the buffer content itself is updated in
`TcpPcb.buf` (`writeBuf`). -/
structure ArrivesResult where
  pcb : Option TcpPcb
  segs : List OutSeg
  wakeups : Nat
  signals : List TcpSignal
  copies : List (Nat × Nat)
deriving DecidableEq

/-- `memcpy(pcb->buf + off, data, len)` on the modelled buffer: bytes
`[off, off + len)` are overwritten (an out-of-range `off + len` grows the
list; the C writes out of bounds there, which claim C10 is about). -/
def writeBuf (buf : List Nat) (off : Nat) (data : List Nat) : List Nat :=
  buf.take off ++ data ++ buf.drop (off + data.length)

/-- The `!pcb || CLOSED` replies of `tcp_segment_arrives`
(`src/tcp.c` lines 389-398). -/
def tcpArrivesClosedSegs (seg : TcpSegmentInfo) (flags : Nat) (l f : IpEndpoint) :
    List OutSeg :=
  if tcpFlgIsSet flags TCP_FLG_RST then []
  else if ¬ tcpFlgIsSet flags TCP_FLG_ACK then
    [⟨0, add32 seg.seq seg.len, TCP_FLG_RST ||| TCP_FLG_ACK, 0, [], l, f⟩]
  else
    [⟨seg.ack, 0, TCP_FLG_RST, 0, [], l, f⟩]

/-- The tail of step 5 (per-state post-ACK transitions) followed by steps 7
(segment text) and 8 (FIN) of `tcp_segment_arrives`. -/
def tcpArrivesPost5 (now : Nat) (pcb : TcpPcb) (seg : TcpSegmentInfo) (flags : Nat)
    (data : List Nat) (l f : IpEndpoint) (wakeAcc : Nat) : ArrivesResult :=
  -- per-state post-ACK: FIN_WAIT1 -> FIN_WAIT2 when our FIN is fully acked
  let pcb :=
    if pcb.state = TCP_PCB_STATE_FIN_WAIT1 ∧ seg.ack = pcb.snd.nxt then
      { pcb with state := TCP_PCB_STATE_FIN_WAIT2 }
    else pcb
  -- 7th, process the segment text (ESTABLISHED only)
  let step7 : TcpPcb × List OutSeg × Nat × List (Nat × Nat) :=
    if pcb.state = TCP_PCB_STATE_ESTABLISHED ∧ data.length ≠ 0 then
      let off := sub64 16 pcb.rcv.wnd
      let pcb := { pcb with
        buf := writeBuf pcb.buf off data,
        rcv := { pcb.rcv with nxt := add32 seg.seq seg.len, wnd := sub16 pcb.rcv.wnd data.length } }
      let r := tcp_output now pcb TCP_FLG_ACK []
      (r.1, [r.2], 1, [(off, data.length)])
    else (pcb, [], 0, [])
  let pcb := step7.1
  -- 8th, check the FIN bit
  if tcpFlgIsSet flags TCP_FLG_FIN then
    if pcb.state = TCP_PCB_STATE_CLOSED ∨ pcb.state = TCP_PCB_STATE_LISTEN ∨
        pcb.state = TCP_PCB_STATE_SYN_SENT then
      ⟨some pcb, step7.2.1, wakeAcc + step7.2.2.1, [], step7.2.2.2⟩
    else
      let pcb := { pcb with rcv := { pcb.rcv with nxt := add32 seg.seq 1 } }
      let r := tcp_output now pcb TCP_FLG_ACK []
      let pcb := r.1
      let fin : TcpPcb × Nat :=
        if pcb.state = TCP_PCB_STATE_SYN_RECEIVED ∨ pcb.state = TCP_PCB_STATE_ESTABLISHED then
          ({ pcb with state := TCP_PCB_STATE_CLOSE_WAIT }, 1)
        else if pcb.state = TCP_PCB_STATE_FIN_WAIT1 then
          (if seg.ack = pcb.snd.nxt then
            { pcb with state := TCP_PCB_STATE_TIME_WAIT, timeWait := now }
          else { pcb with state := TCP_PCB_STATE_CLOSING }, 0)
        else if pcb.state = TCP_PCB_STATE_FIN_WAIT2 then
          ({ pcb with state := TCP_PCB_STATE_TIME_WAIT, timeWait := now }, 0)
        else (pcb, 0)
      ⟨some fin.1, step7.2.1 ++ [r.2], wakeAcc + step7.2.2.1 + fin.2, [], step7.2.2.2⟩
  else
    ⟨some pcb, step7.2.1, wakeAcc + step7.2.2.1, [], step7.2.2.2⟩

/-- Steps 5-8 of the "Otherwise" part of `tcp_segment_arrives` (check the
ACK field, process the segment text, check the FIN bit), entered only for
acceptable non-RST non-SYN segments (`src/tcp.c` lines 600-725). -/
def tcpArrivesSteps5to8 (now : Nat) (pcb : TcpPcb) (seg : TcpSegmentInfo) (flags : Nat)
    (data : List Nat) (l f : IpEndpoint) : ArrivesResult :=
  -- 5th check the ACK field: if the ACK bit is off drop the segment
  if ¬ tcpFlgIsSet flags TCP_FLG_ACK then ⟨some pcb, [], 0, [], []⟩
  else if pcb.state = TCP_PCB_STATE_SYN_RECEIVED ∧
      ¬ (pcb.snd.una ≤ seg.ack ∧ seg.ack ≤ pcb.snd.nxt) then
    -- unacceptable ACK in SYN_RECEIVED: <SEQ=SEG.ACK><CTL=RST> and return
    ⟨some pcb, [⟨seg.ack, 0, TCP_FLG_RST, 0, [], l, f⟩], 0, [], []⟩
  else if pcb.state = TCP_PCB_STATE_LAST_ACK then
    if seg.ack = pcb.snd.nxt then
      let r := tcp_pcb_release { pcb with state := TCP_PCB_STATE_CLOSED }
      ⟨r.1, [], r.2, [], []⟩
    else ⟨some pcb, [], 0, [], []⟩
  else if pcb.state = TCP_PCB_STATE_SYN_RECEIVED ∨ pcb.state = TCP_PCB_STATE_ESTABLISHED ∨
      pcb.state = TCP_PCB_STATE_FIN_WAIT1 ∨ pcb.state = TCP_PCB_STATE_FIN_WAIT2 ∨
      pcb.state = TCP_PCB_STATE_CLOSE_WAIT then
    -- SYN_RECEIVED with acceptable ACK enters ESTABLISHED, wakes, and falls
    -- through into the common ACK block.
    let synRcvdWake : Nat := if pcb.state = TCP_PCB_STATE_SYN_RECEIVED then 1 else 0
    let pcb := if pcb.state = TCP_PCB_STATE_SYN_RECEIVED then
        { pcb with state := TCP_PCB_STATE_ESTABLISHED } else pcb
    -- window/ACK bookkeeping; note the source writes `snd.wl2` twice and
    -- never writes `snd.wl1` (src/tcp.c lines 636-640).
    if pcb.snd.una < seg.ack ∧ seg.ack ≤ pcb.snd.nxt then
      let pcb := tcp_retransmit_queue_cleanup { pcb with snd := { pcb.snd with una := seg.ack } }
      let pcb :=
        if pcb.snd.wl1 < seg.seq ∨ (pcb.snd.wl1 = seg.seq ∧ pcb.snd.wl2 ≤ seg.ack) then
          { pcb with snd := { pcb.snd with wnd := seg.wnd, wl2 := seg.ack } }
        else pcb
      tcpArrivesPost5 now pcb seg flags data l f synRcvdWake
    else if seg.ack < pcb.snd.una then
      tcpArrivesPost5 now pcb seg flags data l f synRcvdWake
    else if seg.ack > pcb.snd.nxt then
      let r := tcp_output now pcb TCP_FLG_ACK []
      ⟨some r.1, [r.2], synRcvdWake, [], []⟩
    else
      tcpArrivesPost5 now pcb seg flags data l f synRcvdWake
  else
    -- states outside the step-5 switch (CLOSING, TIME_WAIT) fall straight
    -- through to steps 7 and 8
    tcpArrivesPost5 now pcb seg flags data l f 0

/-- The LISTEN case of `tcp_segment_arrives` (`src/tcp.c` lines 401-438). -/
def tcpArrivesListen (now issRnd : Nat) (pcb : TcpPcb) (seg : TcpSegmentInfo) (flags : Nat)
    (l f : IpEndpoint) : ArrivesResult :=
  if tcpFlgIsSet flags TCP_FLG_RST then ⟨some pcb, [], 0, [], []⟩
  else if tcpFlgIsSet flags TCP_FLG_ACK then
    ⟨some pcb, [⟨seg.ack, 0, TCP_FLG_RST, 0, [], l, f⟩], 0, [], []⟩
  else if tcpFlgIsSet flags TCP_FLG_SYN then
    let pcb := { pcb with
      loc := l, foreign := f,
      rcv := { pcb.rcv with wnd := 16, nxt := add32 seg.seq 1 },
      irs := seg.seq, iss := issRnd }
    let r := tcp_output now pcb (TCP_FLG_SYN ||| TCP_FLG_ACK) []
    let pcb := { r.1 with
      snd := { r.1.snd with nxt := add32 r.1.iss 1, una := r.1.iss },
      state := TCP_PCB_STATE_SYN_RECEIVED }
    ⟨some pcb, [r.2], 0, [], []⟩
  else ⟨some pcb, [], 0, [], []⟩

/-- The SYN_SENT case of `tcp_segment_arrives` (`src/tcp.c` lines 439-502).
Note the RST branch (lines 451-460): only the `errorf` is guarded by
`acceptable`; the transition to CLOSED, the wakeup and the release are
unconditional. -/
def tcpArrivesSynSent (now : Nat) (pcb : TcpPcb) (seg : TcpSegmentInfo) (flags : Nat)
    (l f : IpEndpoint) : ArrivesResult :=
  -- 1st check the ACK bit
  if tcpFlgIsSet flags TCP_FLG_ACK ∧ (seg.ack ≤ pcb.iss ∨ seg.ack > pcb.snd.nxt) then
    ⟨some pcb, [⟨seg.ack, 0, TCP_FLG_RST, 0, [], l, f⟩], 0, [], []⟩
  else
    let acceptable : Bool :=
      tcpFlgIsSet flags TCP_FLG_ACK ∧ pcb.snd.una ≤ seg.ack ∧ seg.ack ≤ pcb.snd.nxt
    -- 2nd check the RST bit
    if tcpFlgIsSet flags TCP_FLG_RST then
      let sigs : List TcpSignal := if acceptable then [.connectionReset] else []
      let r := tcp_pcb_release { pcb with state := TCP_PCB_STATE_CLOSED }
      ⟨r.1, [], 1 + r.2, sigs, []⟩
    -- 4th check the SYN bit
    else if tcpFlgIsSet flags TCP_FLG_SYN then
      let pcb := { pcb with
        rcv := { pcb.rcv with nxt := add32 seg.seq 1 }, irs := seg.seq }
      let pcb :=
        if acceptable then
          tcp_retransmit_queue_cleanup { pcb with snd := { pcb.snd with una := seg.ack } }
        else pcb
      if pcb.snd.una > pcb.iss then
        let pcb := { pcb with state := TCP_PCB_STATE_ESTABLISHED }
        let r := tcp_output now pcb TCP_FLG_ACK []
        let pcb := { r.1 with
          snd := { r.1.snd with wnd := seg.wnd, wl1 := seg.seq, wl2 := seg.ack } }
        ⟨some pcb, [r.2], 1, [], []⟩
      else
        let pcb := { pcb with state := TCP_PCB_STATE_SYN_RECEIVED }
        let r := tcp_output now pcb (TCP_FLG_SYN ||| TCP_FLG_ACK) []
        ⟨some r.1, [r.2], 0, [], []⟩
    else ⟨some pcb, [], 0, [], []⟩

/-- Step 1 of the "Otherwise" part: the RFC 793 acceptability test
(`src/tcp.c` lines 506-533).  Only the six listed states can set
`acceptable`; CLOSING and TIME_WAIT always fail it. -/
def tcpSegAcceptable (pcb : TcpPcb) (seg : TcpSegmentInfo) : Bool :=
  if pcb.state = TCP_PCB_STATE_SYN_RECEIVED ∨ pcb.state = TCP_PCB_STATE_ESTABLISHED ∨
      pcb.state = TCP_PCB_STATE_FIN_WAIT1 ∨ pcb.state = TCP_PCB_STATE_FIN_WAIT2 ∨
      pcb.state = TCP_PCB_STATE_CLOSE_WAIT ∨ pcb.state = TCP_PCB_STATE_LAST_ACK then
    if seg.len = 0 then
      if pcb.rcv.wnd = 0 then seg.seq = pcb.rcv.nxt
      else pcb.rcv.nxt ≤ seg.seq ∧ seg.seq < add32 pcb.rcv.nxt pcb.rcv.wnd
    else
      if pcb.rcv.wnd = 0 then false
      else
        (pcb.rcv.nxt ≤ seg.seq ∧ seg.seq < add32 pcb.rcv.nxt pcb.rcv.wnd) ∨
        (pcb.rcv.nxt ≤ sub32 (add32 seg.seq seg.len) 1 ∧
          sub32 (add32 seg.seq seg.len) 1 < add32 pcb.rcv.nxt pcb.rcv.wnd)
  else false

/-- `tcp_segment_arrives` (`src/tcp.c` lines 383-726), given the PCB that
`tcp_pcb_select` found (`none` when there was no match).  `now` is the
current time in microseconds and `issRnd` the value `random()` would return
for a LISTEN-side initial send sequence number. -/
def tcp_segment_arrives (now issRnd : Nat) (pcbIn : Option TcpPcb) (seg : TcpSegmentInfo)
    (flags : Nat) (data : List Nat) (l f : IpEndpoint) : ArrivesResult :=
  match pcbIn with
  | none => ⟨none, tcpArrivesClosedSegs seg flags l f, 0, [], []⟩
  | some pcb =>
    if pcb.state = TCP_PCB_STATE_CLOSED then
      ⟨some pcb, tcpArrivesClosedSegs seg flags l f, 0, [], []⟩
    else if pcb.state = TCP_PCB_STATE_LISTEN then
      tcpArrivesListen now issRnd pcb seg flags l f
    else if pcb.state = TCP_PCB_STATE_SYN_SENT then
      tcpArrivesSynSent now pcb seg flags l f
    else
      -- Otherwise: 1st check sequence number
      if ¬ tcpSegAcceptable pcb seg then
        if ¬ tcpFlgIsSet flags TCP_FLG_RST then
          let r := tcp_output now pcb TCP_FLG_ACK []
          ⟨some r.1, [r.2], 0, [], []⟩
        else ⟨some pcb, [], 0, [], []⟩
      -- 2nd check the RST bit
      else if tcpFlgIsSet flags TCP_FLG_RST then
        if pcb.state = TCP_PCB_STATE_SYN_RECEIVED then
          if pcb.active ≠ 0 then
            let r := tcp_pcb_release { pcb with state := TCP_PCB_STATE_CLOSED }
            ⟨r.1, [], r.2, [.connectionRefused], []⟩
          else ⟨some { pcb with state := TCP_PCB_STATE_LISTEN }, [], 0, [], []⟩
        else if pcb.state = TCP_PCB_STATE_ESTABLISHED ∨ pcb.state = TCP_PCB_STATE_FIN_WAIT1 ∨
            pcb.state = TCP_PCB_STATE_FIN_WAIT2 ∨ pcb.state = TCP_PCB_STATE_CLOSE_WAIT then
          let ea := tcp_retransmit_queue_emit_all now pcb
          let r := tcp_pcb_release { ea.1 with state := TCP_PCB_STATE_CLOSED }
          ⟨r.1, ea.2.1, ea.2.2 + r.2, [], []⟩
        else
          -- CLOSING, LAST_ACK, TIME_WAIT
          let r := tcp_pcb_release { pcb with state := TCP_PCB_STATE_CLOSED }
          ⟨r.1, [], r.2, [], []⟩
      -- 4th check the SYN bit (any synchronized state: reset)
      else if tcpFlgIsSet flags TCP_FLG_SYN then
        let ea := tcp_retransmit_queue_emit_all now pcb
        let r := tcp_pcb_release { ea.1 with state := TCP_PCB_STATE_CLOSED }
        ⟨r.1, ea.2.1, ea.2.2 + r.2, [], []⟩
      else
        tcpArrivesSteps5to8 now pcb seg flags data l f

/-! ## Blocking user commands (`tcp_send`, `tcp_receive`)

`sched_sleep` suspends the caller until the protocol worker wakes it.  The
worker's effect on the PCB while the caller is parked is supplied by an
oracle, one event per sleep: `.intr` makes `sched_sleep` return `-1`
(interrupted), `.wake` resumes the caller after the worker's ACK
processing updated `snd.una`/`snd.wnd` (the only send-side fields the
worker writes in the states `tcp_send` runs in).  After every wakeup the C
jumps to `RETRY` and re-runs the state switch; a `.wake` event leaves the
state unchanged, so that dispatch re-enters the same branch, which the
embedding encodes by re-testing the state every iteration.  The recursion
carries fuel; `.blocked` is the artifact result for an exhausted oracle or
fuel and corresponds to a caller that is still parked. -/

inductive SendEv where
  | intr
  | wake (una wnd : Nat)
deriving DecidableEq

inductive UserRes where
  | err
  | eintr
  | blocked
  | ok (n : Nat)
deriving DecidableEq

structure SendOut where
  res : UserRes
  pcb : TcpPcb
  segs : List OutSeg
  parks : Nat
deriving DecidableEq

/-- The `RETRY`/`while (sent < len)` loop of `tcp_send`
(`src/tcp.c` lines 1026-1064).  In `cap = pcb->snd.wnd - (pcb->snd.nxt -
pcb->snd.una)` the inner difference is `uint32_t` and the outer
subtraction also happens in 32-bit unsigned arithmetic (the `uint16_t`
window is promoted to `int`, then converted to `unsigned int` to match the
`uint32_t` operand) before the result is widened to the `size_t` `cap`, so
both wraps are at `2^32`. -/
def tcp_send_loop (now mss : Nat) (data : List Nat) :
    Nat → List SendEv → TcpPcb → Nat → List OutSeg → Nat → SendOut
  | 0, _, pcb, _, segs, parks => ⟨.blocked, pcb, segs, parks⟩
  | fuel + 1, oracle, pcb, sent, segs, parks =>
    if pcb.state = TCP_PCB_STATE_ESTABLISHED ∨ pcb.state = TCP_PCB_STATE_CLOSE_WAIT then
      if sent < data.length then
        let cap := sub32 pcb.snd.wnd (sub32 pcb.snd.nxt pcb.snd.una)
        if cap = 0 then
          match oracle with
          | [] => ⟨.blocked, pcb, segs, parks + 1⟩
          | .intr :: _ =>
            if sent = 0 then ⟨.eintr, pcb, segs, parks + 1⟩
            else ⟨.ok sent, pcb, segs, parks + 1⟩
          | .wake u w :: rest =>
            tcp_send_loop now mss data fuel rest
              { pcb with snd := { pcb.snd with una := u, wnd := w } } sent segs (parks + 1)
        else
          let slen := min (min mss (data.length - sent)) cap
          let r := tcp_output now pcb (TCP_FLG_ACK ||| TCP_FLG_PSH) ((data.drop sent).take slen)
          let pcb := { r.1 with snd := { r.1.snd with nxt := add32 r.1.snd.nxt slen } }
          tcp_send_loop now mss data fuel oracle pcb (sent + slen) (segs ++ [r.2]) parks
      else ⟨.ok sent, pcb, segs, parks⟩
    else ⟨.err, pcb, segs, parks⟩

/-- `tcp_send` (`src/tcp.c` lines 1013-1077) on a valid PCB.  `mtu` is the
egress interface MTU (`ip_route_get_iface` result; `none` means no route,
an error); `mss = mtu - (IP_HDR_SIZE_MIN + sizeof(struct tcp_hdr))`. -/
def tcp_send (now : Nat) (fuel : Nat) (mtu : Option Nat) (oracle : List SendEv)
    (pcb : TcpPcb) (data : List Nat) : SendOut :=
  if pcb.state = TCP_PCB_STATE_ESTABLISHED ∨ pcb.state = TCP_PCB_STATE_CLOSE_WAIT then
    match mtu with
    | none => ⟨.err, pcb, [], 0⟩
    | some m => tcp_send_loop now (sub64 m 40) data fuel oracle pcb 0 [] 0
  else ⟨.err, pcb, [], 0⟩

/-- Oracle events for `tcp_receive`: a wakeup carries the worker's effect on
the fields the call reads (`state`, `rcv.wnd`, `buf`). -/
inductive RecvEv where
  | intr
  | wake (state wnd : Nat) (buf : List Nat)
deriving DecidableEq

structure RecvOut where
  res : UserRes
  pcb : TcpPcb
  out : List Nat
deriving DecidableEq

/-- The copy-out tail of `tcp_receive` (`src/tcp.c` lines 1116-1123):
`len = MIN(size, remain)`, `memcpy` to the caller, `memmove` compaction,
`rcv.wnd += len`. -/
def tcp_receive_copy (pcb : TcpPcb) (remain size : Nat) : RecvOut :=
  let len := min size remain
  let out := pcb.buf.take len
  let buf := (pcb.buf.drop len).take (remain - len) ++ pcb.buf.drop (remain - len)
  ⟨.ok len, { pcb with buf := buf, rcv := { pcb.rcv with wnd := add16 pcb.rcv.wnd len } }, out⟩

/-- `tcp_receive` (`src/tcp.c` lines 1079-1124) on a valid PCB.
`remain = sizeof(pcb->buf) - pcb->rcv.wnd` with `sizeof(pcb->buf) = 16`. -/
def tcp_receive (size : Nat) : Nat → List RecvEv → TcpPcb → RecvOut
  | 0, _, pcb => ⟨.blocked, pcb, []⟩
  | fuel + 1, oracle, pcb =>
    if pcb.state = TCP_PCB_STATE_ESTABLISHED then
      let remain := sub64 16 pcb.rcv.wnd
      if remain = 0 then
        match oracle with
        | [] => ⟨.blocked, pcb, []⟩
        | .intr :: _ => ⟨.eintr, pcb, []⟩
        | .wake s w b :: rest =>
          tcp_receive size fuel rest { pcb with state := s, rcv := { pcb.rcv with wnd := w }, buf := b }
      else tcp_receive_copy pcb remain size
    else if pcb.state = TCP_PCB_STATE_CLOSE_WAIT then
      let remain := sub64 16 pcb.rcv.wnd
      if remain ≠ 0 then tcp_receive_copy pcb remain size
      else ⟨.ok 0, pcb, []⟩
    else ⟨.err, pcb, []⟩

/-! ## Timer wheel (`src/net.c` lines 208-250)

`struct timeval` is modelled as a microsecond count.  `net_timer_register`
prepends to the singly linked `timers` list; `net_timer_handler` walks the
list from the head (most recently registered first) and fires a timer when
`timercmp(&timer->interval, &diff, <)`, i.e. when the elapsed time strictly
exceeds the interval.  Handlers are identified by an `id`; the C re-reads
`gettimeofday` before each timer, which under the monotone-time model is
the single value `now`. -/

structure NetTimer where
  interval : Nat
  last : Nat
  id : Nat
deriving DecidableEq

/-- `net_timer_register(interval, handler)`: sets `last` to the current
time and pushes the timer onto the head of the list. -/
def net_timer_register (now : Nat) (timers : List NetTimer) (interval id : Nat) :
    List NetTimer :=
  ⟨interval, now, id⟩ :: timers

/-- `net_timer_handler()`: returns the ids fired (in call order) and the
updated timer list. -/
def net_timer_handler (now : Nat) : List NetTimer → List Nat × List NetTimer
  | [] => ([], [])
  | t :: rest =>
    let r := net_timer_handler now rest
    if t.interval < now - t.last then (t.id :: r.1, { t with last := now } :: r.2)
    else (r.1, t :: r.2)

/-! ## Scheduling context (`src/platform/linux/sched.c`)

All `sched_*` calls run under the owning stack mutex, so a run is a
sequence of atomic transitions.  A `sched_sleep` call is split at its
suspension point: `.sleep` is the entry (which either returns `EINTR` at
once when the flag is already set, or increments `wc` and parks), and
`.resume` is one parked task returning from `pthread_cond_wait` after a
broadcast (decrement `wc`; with the flag set, clear it when `wc` hit zero
and return `EINTR`).  `.intr` is `sched_interrupt` (set flag, broadcast);
`.wake` is `sched_wakeup` (broadcast only). -/

structure SchedCtx where
  interrupted : Bool
  wc : Nat
deriving DecidableEq

def sched_ctx_init : SchedCtx := ⟨false, 0⟩

/-- `sched_interrupt`: set the flag (and broadcast). -/
def sched_interrupt (c : SchedCtx) : SchedCtx := { c with interrupted := true }

/-- Entry of `sched_sleep`: `true` means it returned `-1`/`EINTR`
immediately (note: without touching the flag); `false` means the caller
parked. -/
def sched_sleep_enter (c : SchedCtx) : SchedCtx × Bool :=
  if c.interrupted then (c, true) else ({ c with wc := c.wc + 1 }, false)

/-- Resumption of a parked `sched_sleep`: `true` means it returns
`-1`/`EINTR`. -/
def sched_sleep_resume (c : SchedCtx) : SchedCtx × Bool :=
  let c1 : SchedCtx := { c with wc := c.wc - 1 }
  if c1.interrupted then
    if c1.wc = 0 then ({ c1 with interrupted := false }, true) else (c1, true)
  else (c1, false)

/-- What one scheduling event lets a task observe. -/
inductive SchedObs where
  | eintrNow
  | eintrWake
  | okWake
deriving DecidableEq

inductive SchedEv where
  | sleep
  | resume
  | intr
  | wake
deriving DecidableEq

/-- Run a serialized sequence of scheduling events; `.resume` with no
parked task is a no-op (a broadcast cannot resume more tasks than are
parked).  Returns the final context and the observations in order. -/
def sched_run : List SchedEv → SchedCtx → SchedCtx × List SchedObs
  | [], c => (c, [])
  | e :: rest, c =>
    match e with
    | .sleep =>
      let r := sched_sleep_enter c
      let rr := sched_run rest r.1
      if r.2 then (rr.1, .eintrNow :: rr.2) else rr
    | .resume =>
      if c.wc = 0 then sched_run rest c
      else
        let r := sched_sleep_resume c
        let rr := sched_run rest r.1
        (rr.1, (if r.2 then SchedObs.eintrWake else SchedObs.okWake) :: rr.2)
    | .intr => sched_run rest (sched_interrupt c)
    | .wake => sched_run rest c

/-! ## TCP checksum (`tcp_output_segment` / `tcp_input`)

`cksum16`, `hton16`/`hton32` and friends live in `util.c`, which is not
part of `src/`.  Modelled from the spec: the Internet checksum (RFC 1071)
over 16-bit big-endian words — fold the one's-complement 32-bit sum into
16 bits and complement; the pseudo-header spans
`{src, dst, 0, protocol = 6, tcp_length}` (spec §6, wire formats,
big-endian).  An odd trailing payload byte is padded with a zero low
byte.  The segment itself is built by `tcp_output_segment`
(`src/tcp.c` lines 239-278) with the checksum field zero, then the field
is set to `cksum16(hdr, total, psum)` where
`psum = ~cksum16(&pseudo, 12, 0)`; `tcp_input` (lines 745-754) recomputes
`cksum16(hdr, len, psum)` over the received bytes and requires 0. -/

/-- One step of the end-around carry fold. -/
def foldCarry (s : Nat) : Nat :=
  if s < 65536 then s else foldCarry (s % 65536 + s / 65536)
  termination_by s
  decreasing_by
    simp only [not_lt] at *
    omega

/-- Modelled from the spec: `cksum16(addr, count, init)` over the 16-bit
words of the buffer — the complement of the folded sum. -/
def cksum16 (words : List Nat) (init : Nat) : Nat :=
  65535 - foldCarry (init + words.sum)

/-- Big-endian pairing of payload bytes into 16-bit words; an odd final
byte becomes the high byte of a zero-padded word. -/
def pairBytes : List Nat → List Nat
  | [] => []
  | [b] => [b * 256]
  | b1 :: b2 :: rest => (b1 * 256 + b2) :: pairBytes rest

/-- The pseudo-header words `{src, dst, 0, protocol = 6, tcp_length}`. -/
def pseudoWords (src dst tcpLen : Nat) : List Nat :=
  [src % 4294967296 / 65536, src % 65536, dst % 4294967296 / 65536, dst % 65536,
    6, tcpLen % 65536]

/-- The eight TCP header words before the checksum field, as
`tcp_output_segment` fills them: source port, destination port, sequence
and acknowledgement numbers (`hton32`), `off = 0x50`, flags, window. -/
def tcpHdrWordsPre (seq ack flg wnd : Nat) (l f : IpEndpoint) : List Nat :=
  [l.port % 65536, f.port % 65536,
    seq % 4294967296 / 65536, seq % 65536,
    ack % 4294967296 / 65536, ack % 65536,
    0x50 * 256 + flg % 256, wnd % 65536]

/-- `tcp_output_segment(seq, ack, flg, wnd, data, len, local, foreign)`:
the 16-bit words of the segment it hands to `ip_output`, with the computed
checksum in place (the word after the header prefix is the checksum, then
the urgent pointer 0, then the payload). -/
def tcp_output_segment (seq ack flg wnd : Nat) (payload : List Nat) (l f : IpEndpoint) :
    List Nat :=
  let pre := tcpHdrWordsPre seq ack flg wnd l f
  let post := 0 :: pairBytes payload
  let total := 20 + payload.length
  let psum := 65535 - cksum16 (pseudoWords l.addr f.addr total) 0
  let c := cksum16 (pre ++ 0 :: post) psum
  pre ++ c :: post

/-- The checksum verification value `tcp_input` computes over a received
segment: `cksum16((uint16_t *)hdr, len, psum)` with
`psum = ~cksum16(&pseudo, 12, 0)`; the segment is accepted iff this is
zero. -/
def tcp_input_verify (words : List Nat) (src dst tcpLen : Nat) : Nat :=
  let psum := 65535 - cksum16 (pseudoWords src dst tcpLen) 0
  cksum16 words psum

/-! ## Specification-level helpers and concrete inputs -/

/-- The send variables of the loop as claim C5 describes it. -/
structure SendSpecSt where
  una : Nat
  nxt : Nat
  wnd : Nat
deriving DecidableEq

/-- The send loop exactly as claim C5 words it, over plain naturals: with
`cap = snd.wnd - (snd.nxt - snd.una)`, park when `cap` is 0 (an
interrupted park reports the bytes accepted so far, as an error when there
are none), otherwise transmit `min(mss, remaining, cap)` bytes and advance
`snd.nxt` by that amount; once all data is accepted return the total.  A
park consumes one oracle event exactly as in `tcp_send_loop`.  The result
is (outcome, final send variables, transmitted payloads, park count). -/
def tcp_send_claim_loop (mss : Nat) (data : List Nat) :
    Nat → List SendEv → SendSpecSt → Nat → List (List Nat) → Nat →
      UserRes × SendSpecSt × List (List Nat) × Nat
  | 0, _, st, _, outs, parks => (.blocked, st, outs, parks)
  | fuel + 1, oracle, st, sent, outs, parks =>
    if sent < data.length then
      let cap := st.wnd - (st.nxt - st.una)
      if cap = 0 then
        match oracle with
        | [] => (.blocked, st, outs, parks + 1)
        | .intr :: _ =>
          if sent = 0 then (.eintr, st, outs, parks + 1)
          else (.ok sent, st, outs, parks + 1)
        | .wake u w :: rest =>
          tcp_send_claim_loop mss data fuel rest ⟨u, st.nxt, w⟩ sent outs (parks + 1)
      else
        let slen := min (min mss (data.length - sent)) cap
        tcp_send_claim_loop mss data fuel oracle ⟨st.una, st.nxt + slen, st.wnd⟩ (sent + slen)
          (outs ++ [(data.drop sent).take slen]) parks
    else (.ok sent, st, outs, parks)

/-- The observables of a `tcp_send` run: outcome, final
`snd.una`/`snd.nxt`/`snd.wnd`, the transmitted payload sequence and the
park count. -/
def sendObs (o : SendOut) : UserRes × Nat × Nat × Nat × List (List Nat) × Nat :=
  (o.res, o.pcb.snd.una, o.pcb.snd.nxt, o.pcb.snd.wnd, o.segs.map OutSeg.payload, o.parks)

/-- The same observables of a `tcp_send_claim_loop` run. -/
def claimObs (r : UserRes × SendSpecSt × List (List Nat) × Nat) :
    UserRes × Nat × Nat × Nat × List (List Nat) × Nat :=
  (r.1, r.2.1.una, r.2.1.nxt, r.2.1.wnd, r.2.2.1, r.2.2.2)

/-- An all-zero PCB (the content of a freshly `memset` slot), used as the
base of the concrete test inputs. -/
def pcb0 : TcpPcb :=
  { active := 0, state := 0, loc := ⟨0, 0⟩, foreign := ⟨0, 0⟩,
    snd := ⟨0, 0, 0, 0, 0, 0⟩, iss := 0, rcv := ⟨0, 0, 0⟩, irs := 0,
    mtu := 0, mss := 0, startTime := 0, timeWait := 0,
    buf := List.replicate 16 0, ctxWc := 0, queue := [] }

/-- C2 counterexample input: two wildcard-LISTEN PCBs on port 80, the first
with wildcard local address, the second bound to local address 9. -/
def c2listen0 : TcpPcb := { pcb0 with state := TCP_PCB_STATE_LISTEN, loc := ⟨0, 80⟩ }

def c2listen1 : TcpPcb := { pcb0 with state := TCP_PCB_STATE_LISTEN, loc := ⟨9, 80⟩ }

/-- C1 input: an ESTABLISHED PCB about to process an acceptable ACK that
should update the send window. -/
def c1pcb : TcpPcb :=
  { pcb0 with
    state := TCP_PCB_STATE_ESTABLISHED,
    loc := ⟨1, 2⟩, foreign := ⟨3, 4⟩,
    snd := ⟨200, 100, 100, 0, 10, 10⟩, rcv := ⟨50, 16, 0⟩,
    queue := [⟨0, 0, 200000, 100, 0x18, [1]⟩, ⟨0, 0, 200000, 160, 0x18, [2]⟩] }

/-- C3 inputs: an ESTABLISHED PCB with one retransmission entry first sent
at time 0 with the default RTO. -/
def c3entry : TcpQueueEntry := ⟨0, 0, 200000, 42, 0x18, [9]⟩

def c3pcb : TcpPcb :=
  { pcb0 with
    state := TCP_PCB_STATE_ESTABLISHED,
    loc := ⟨1, 2⟩, foreign := ⟨3, 4⟩, rcv := ⟨77, 10, 0⟩,
    queue := [c3entry] }

/-- C4 input: an active SYN_SENT PCB (SYN on the wire, nothing ACKed). -/
def c4pcb : TcpPcb :=
  { pcb0 with
    state := TCP_PCB_STATE_SYN_SENT, active := 1, iss := 100,
    snd := ⟨101, 100, 0, 0, 0, 0⟩,
    queue := [⟨0, 0, 200000, 100, TCP_FLG_SYN, []⟩] }

/-- C10 input: an ESTABLISHED PCB whose receive window is down to 8 bytes
of the 16-byte buffer. -/
def c10pcb : TcpPcb :=
  { pcb0 with
    state := TCP_PCB_STATE_ESTABLISHED,
    loc := ⟨1, 2⟩, foreign := ⟨3, 4⟩,
    snd := ⟨500, 500, 1000, 0, 0, 0⟩, rcv := ⟨100, 8, 0⟩ }

/-- C10 input: a 32-byte payload whose start (but not end) lies in the
receive window. -/
def c10seg : TcpSegmentInfo := ⟨100, 500, 32, 1000, 0⟩

def c10data : List Nat := List.replicate 32 7

/-- C6 witness input: an ESTABLISHED PCB with 6 buffered bytes
(`rcv.wnd = 10`). -/
def c6pcb : TcpPcb :=
  { pcb0 with
    state := TCP_PCB_STATE_ESTABLISHED,
    rcv := ⟨0, 10, 0⟩,
    buf := [1, 2, 3, 4, 5, 6, 0, 0, 0, 0, 0, 0, 0, 0, 0, 0] }

/-- C5 witness input: an ESTABLISHED PCB with an empty, 100-byte send
window. -/
def c5pcb : TcpPcb :=
  { pcb0 with
    state := TCP_PCB_STATE_ESTABLISHED,
    loc := ⟨1, 2⟩, foreign := ⟨3, 4⟩,
    snd := ⟨0, 0, 100, 0, 0, 0⟩, rcv := ⟨0, 16, 0⟩ }

/-- C5 witness input: an ESTABLISHED PCB whose window is full
(`nxt = una + wnd`), forcing a park. -/
def c5fullpcb : TcpPcb :=
  { pcb0 with
    state := TCP_PCB_STATE_ESTABLISHED,
    snd := ⟨30, 10, 20, 0, 0, 0⟩ }

/-- C5 witness input: an ESTABLISHED PCB whose send window has only 5 bytes
of room, so `cap` (not `mss` or the remaining data) bounds the first
segment. -/
def c5cappcb : TcpPcb :=
  { pcb0 with
    state := TCP_PCB_STATE_ESTABLISHED,
    loc := ⟨1, 2⟩, foreign := ⟨3, 4⟩,
    snd := ⟨0, 0, 5, 0, 0, 0⟩, rcv := ⟨0, 16, 0⟩ }

/-! # Theorems -/

/-! ## Arithmetic facts about the checksum fold -/

theorem foldCarry_eq_self {s : Nat} (h : s < 65536) : foldCarry s = s := by
  rw [foldCarry]
  simp [h]

theorem foldCarry_lt (s : Nat) : foldCarry s < 65536 := by
  induction s using Nat.strong_induction_on with
  | _ s ih =>
    rw [foldCarry]
    split
    · omega
    · exact ih _ (by omega)

theorem foldCarry_mod (s : Nat) : foldCarry s % 65535 = s % 65535 := by
  induction s using Nat.strong_induction_on with
  | _ s ih =>
    rw [foldCarry]
    split
    · rfl
    · rw [ih _ (by omega)]
      omega

theorem foldCarry_pos (s : Nat) (h : 0 < s) : 0 < foldCarry s := by
  induction s using Nat.strong_induction_on with
  | _ s ih =>
    rw [foldCarry]
    split
    · omega
    · exact ih _ (by omega) (by omega)

theorem foldCarry_total (s : Nat) (h0 : 0 < s) (hm : s % 65535 = 0) :
    foldCarry s = 65535 := by
  have h1 := foldCarry_lt s
  have h2 := foldCarry_mod s
  rw [hm] at h2
  have h3 := foldCarry_pos s h0
  omega

/-- Inserting the complement of the folded sum into the summed buffer makes
the verification fold come out at `0xffff`, i.e. the verification checksum
comes out at zero, wherever in the word list the checksum field sits. -/
theorem cksum_roundtrip (pre post : List Nat) (psum : Nat) :
    cksum16 (pre ++ cksum16 (pre ++ 0 :: post) psum :: post) psum = 0 := by
  unfold cksum16
  have hT0 : (pre ++ (0 : Nat) :: post).sum = pre.sum + post.sum := by
    simp [List.sum_append]
  set T := psum + (pre ++ (0 : Nat) :: post).sum with hT
  have hs : (pre ++ (65535 - foldCarry T) :: post).sum
      = pre.sum + ((65535 - foldCarry T) + post.sum) := by
    simp [List.sum_append]
  rw [hs]
  have harg : psum + (pre.sum + ((65535 - foldCarry T) + post.sum))
      = T + (65535 - foldCarry T) := by
    rw [hT, hT0]
    ring
  rw [harg]
  have key : foldCarry (T + (65535 - foldCarry T)) = 65535 := by
    have hlt := foldCarry_lt T
    apply foldCarry_total
    · by_cases h0 : T = 0
      · rw [h0, foldCarry_eq_self (by omega)]
        omega
      · omega
    · have hm := foldCarry_mod T
      omega
  rw [key]

/-- C9: building a segment with `tcp_output_segment` (flags = ACK) and then
running the checksum verification `tcp_input` performs over the resulting
words (pseudo-header of src, dst, zero, protocol 6 and TCP length, folded
with the header and payload) yields a checksum match: the verification sum
is 0. -/
theorem tcp_checksum_roundtrip (seq ack wnd : Nat) (payload : List Nat)
    (l f : IpEndpoint) :
    tcp_input_verify (tcp_output_segment seq ack TCP_FLG_ACK wnd payload l f)
      l.addr f.addr (20 + payload.length) = 0 := by
  unfold tcp_output_segment tcp_input_verify
  exact cksum_roundtrip (tcpHdrWordsPre seq ack TCP_FLG_ACK wnd l f)
    (0 :: pairBytes payload)
    (65535 - cksum16 (pseudoWords l.addr f.addr (20 + payload.length)) 0)

/-! ## C2: PCB selection -/

theorem tcp_pcb_select_go_eq (l f : IpEndpoint) (pcbs : List TcpPcb) :
    ∀ acc, tcp_pcb_select_go l (some f) pcbs acc =
      match pcbs.find? (fun p => localMatch p l && foreignExact p f) with
      | some p => some p
      | none =>
        pcbs.foldl (fun a p => if localMatch p l && listenWildcard p then some p else a) acc := by
  induction pcbs with
  | nil => intro acc; rfl
  | cons p rest ih =>
    intro acc
    cases h1 : localMatch p l with
    | false =>
      simp only [tcp_pcb_select_go, List.find?, List.foldl, h1, Bool.false_and,
        Bool.false_eq_true, if_false, cond_false]
      exact ih acc
    | true =>
      cases h2 : foreignExact p f with
      | true =>
        simp [tcp_pcb_select_go, List.find?, h1, h2]
      | false =>
        cases h3 : listenWildcard p with
        | true =>
          simp only [tcp_pcb_select_go, List.find?, List.foldl, h1, h2, h3, Bool.true_and,
            Bool.and_true, Bool.and_false, Bool.false_eq_true, if_true, if_false, cond_false]
          exact ih (some p)
        | false =>
          simp only [tcp_pcb_select_go, List.find?, List.foldl, h1, h2, h3, Bool.true_and,
            Bool.and_false, Bool.false_eq_true, if_true, if_false, cond_false]
          exact ih acc

/-- C2 (amended): for every `(local, foreign)` pair, `tcp_pcb_select`
returns a PCB with exactly matching local (possibly wildcard) and foreign
endpoints when one exists (the first such in table order), and otherwise
the LAST wildcard-foreign LISTEN PCB with matching local endpoint in table
order (`listen_pcb` is overwritten on every match); in every other case it
returns no PCB. -/
theorem tcp_pcb_select_full_then_last_listen (pcbs : List TcpPcb) (l f : IpEndpoint) :
    tcp_pcb_select pcbs l (some f) = tcp_pcb_select_spec pcbs l f := by
  unfold tcp_pcb_select tcp_pcb_select_spec
  exact tcp_pcb_select_go_eq l f pcbs none

/-- C2 counterexample: two wildcard-LISTEN PCBs both match locally; the
claim as stated demands the first one (`c2listen0`), but `tcp_pcb_select`
returns the second (last) one. -/
theorem tcp_pcb_select_first_listen_cex :
    tcp_pcb_select [c2listen0, c2listen1] ⟨9, 80⟩ (some ⟨7, 1234⟩) = some c2listen1 ∧
    c2listen1 ≠ c2listen0 := by
  constructor
  · rfl
  · decide

/-! ## C7: timer tick -/

theorem net_timer_register_foldl (regs : List (Nat × Nat × Nat)) :
    ∀ acc, regs.foldl (fun ts r => net_timer_register r.1 ts r.2.1 r.2.2) acc =
      (regs.map (fun r => (⟨r.2.1, r.1, r.2.2⟩ : NetTimer))).reverse ++ acc := by
  induction regs with
  | nil => intro acc; rfl
  | cons r rs ih =>
    intro acc
    simp only [List.foldl, List.map, List.reverse_cons, List.append_assoc, ih,
      List.singleton_append]
    rfl

/-- C7 (amended): on a timer tick every registered timer whose elapsed time
since its last firing STRICTLY exceeds its interval has its handler called
and its last-fired timestamp set to `now`; eligible timers are serviced in
REVERSE registration order, because `net_timer_register` pushes each new
timer onto the head of the list that `net_timer_handler` walks from the
head. -/
theorem net_timer_handler_strict_reverse :
    (∀ now timers,
      (net_timer_handler now timers).1 =
        (timers.filter (fun t => t.interval < now - t.last)).map NetTimer.id ∧
      (net_timer_handler now timers).2 =
        timers.map (fun t => if t.interval < now - t.last then { t with last := now } else t)) ∧
    (∀ regs : List (Nat × Nat × Nat),
      regs.foldl (fun ts r => net_timer_register r.1 ts r.2.1 r.2.2) [] =
        (regs.map (fun r => (⟨r.2.1, r.1, r.2.2⟩ : NetTimer))).reverse) := by
  constructor
  · intro now timers
    induction timers with
    | nil => exact ⟨rfl, rfl⟩
    | cons t rest ih =>
      by_cases h : t.interval < now - t.last
      · simp [net_timer_handler, List.filter, h, ih]
      · simp [net_timer_handler, List.filter, h, ih]
  · intro regs
    simpa using net_timer_register_foldl regs []

/-- C7 counterexample: registering timer 1 then timer 2 (both interval 100,
at time 0) and ticking at 150 services them as `[2, 1]`, the reverse of
registration order; and a timer whose elapsed time equals its interval
exactly (last 50, interval 100, now 150) does not fire, although the claim
says "at least its interval". -/
theorem net_timer_handler_order_cex :
    (net_timer_handler 150 (net_timer_register 0 (net_timer_register 0 [] 100 1) 100 2)).1
      = [2, 1] ∧
    (net_timer_handler 150 [⟨100, 50, 3⟩]).1 = [] :=
  ⟨rfl, rfl⟩

/-! ## C8: scheduling-context interruption -/

theorem sched_run_resume_cons (c : SchedCtx) (rest : List SchedEv) (h : ¬ c.wc = 0) :
    sched_run (.resume :: rest) c =
      ((sched_run rest (sched_sleep_resume c).1).1,
        (if (sched_sleep_resume c).2 then SchedObs.eintrWake else SchedObs.okWake) ::
          (sched_run rest (sched_sleep_resume c).1).2) := by
  simp [sched_run, h]

theorem sched_run_replicate_sleep (k : Nat) :
    ∀ (c : SchedCtx) (rest : List SchedEv), c.interrupted = false →
      sched_run (List.replicate k .sleep ++ rest) c =
        sched_run rest ⟨false, c.wc + k⟩ := by
  induction k with
  | zero =>
    intro c rest h
    cases c with
    | mk i w => simp_all [List.replicate]
  | succ k ih =>
    intro c rest h
    rw [show List.replicate (k + 1) SchedEv.sleep ++ rest
        = SchedEv.sleep :: (List.replicate k SchedEv.sleep ++ rest) by simp [List.replicate]]
    simp only [sched_run, sched_sleep_enter, h, Bool.false_eq_true, if_false]
    rw [ih ⟨false, c.wc + 1⟩ rest rfl]
    have harith : c.wc + 1 + k = c.wc + (k + 1) := by omega
    rw [harith]

theorem sched_run_drain (k : Nat) :
    sched_run (List.replicate (k + 1) .resume) ⟨true, k + 1⟩ =
      (⟨false, 0⟩, List.replicate (k + 1) .eintrWake) := by
  induction k with
  | zero => rfl
  | succ k ih =>
    rw [show List.replicate (k + 2) SchedEv.resume
        = SchedEv.resume :: List.replicate (k + 1) SchedEv.resume from rfl]
    rw [sched_run_resume_cons _ _ (by simp)]
    have hres : sched_sleep_resume ⟨true, k + 2⟩ = (⟨true, k + 1⟩, true) := by
      simp [sched_sleep_resume]
    rw [hres]
    simp only [ih, if_true]
    rfl

/-- C8 (amended): `sched_interrupt` sets the interrupted flag and wakes all
parkers; every task parked at the time of the interrupt observes
INTERRUPTED exactly once on resuming, and the flag is cleared when the last
of them resumes — in particular, after an interrupt with no parkers the
flag stays set.  A task that calls `sched_sleep` while the flag is set
returns INTERRUPTED immediately WITHOUT consuming the flag, so such calls
can observe INTERRUPTED repeatedly. -/
theorem sched_interrupt_drain_spec :
    (∀ k : Nat,
      sched_run (List.replicate k .sleep ++ .intr :: List.replicate k .resume) sched_ctx_init
        = (⟨decide (k = 0), 0⟩, List.replicate k .eintrWake)) ∧
    (∀ c : SchedCtx, c.interrupted = true → sched_run [.sleep] c = (c, [.eintrNow])) := by
  constructor
  · intro k
    rw [sched_run_replicate_sleep k sched_ctx_init _ rfl]
    rw [show (⟨false, sched_ctx_init.wc + k⟩ : SchedCtx) = ⟨false, k⟩ by
      simp [sched_ctx_init]]
    rw [show sched_run (SchedEv.intr :: List.replicate k SchedEv.resume) ⟨false, k⟩
        = sched_run (List.replicate k SchedEv.resume) ⟨true, k⟩ from rfl]
    cases k with
    | zero => rfl
    | succ k =>
      rw [sched_run_drain k]
      simp
  · intro c h
    simp [sched_run, sched_sleep_enter, h]

/-- C8 counterexample: interrupt with no parkers, then the same task calls
`sched_sleep` twice: it observes INTERRUPTED twice (not exactly once) and
the flag is still set afterwards (never cleared although the only consumer
has consumed it). -/
theorem sched_interrupt_once_cex :
    sched_run [.intr, .sleep, .sleep] sched_ctx_init
      = (⟨true, 0⟩, [.eintrNow, .eintrNow]) := by
  rfl

/-- Witness for `sched_interrupt_drain_spec` at two parkers and at a
concrete already-interrupted context. -/
theorem sched_interrupt_drain_spec_witness :
    (sched_run (List.replicate 2 .sleep ++ .intr :: List.replicate 2 .resume) sched_ctx_init
      = (⟨false, 0⟩, List.replicate 2 .eintrWake)) ∧
    sched_run [.sleep] ⟨true, 5⟩ = (⟨true, 5⟩, [.eintrNow]) := by
  constructor
  · have h := sched_interrupt_drain_spec.1 2
    simpa using h
  · exact sched_interrupt_drain_spec.2 ⟨true, 5⟩ rfl

/-! ## C3: retransmit tick -/

/-- C3 (amended): on each retransmit tick, FREE PCBs are skipped, and for
every retransmission entry of a non-FREE PCB: if `now - first` is at least
12 s the PCB's STATE is set to CLOSED and its parkers are woken (the slot
is NOT released and the entry stays queued); otherwise, if `now` is
STRICTLY later than `last + rto`, the segment is resent using the PCB's
current `rcv.nxt` and `rcv.wnd`, the entry's last-send time is set to `now`
and its rto doubled; otherwise the entry is untouched. -/
theorem tcp_retransmit_emit_spec :
    (∀ now pcb e, TCP_RETRANSMIT_DEADLINE * 1000000 ≤ now - e.first →
      tcp_retransmit_queue_emit now pcb e =
        ({ pcb with state := TCP_PCB_STATE_CLOSED }, e, [], 1)) ∧
    (∀ now pcb e, now - e.first < TCP_RETRANSMIT_DEADLINE * 1000000 →
      e.last + e.rto < now →
      tcp_retransmit_queue_emit now pcb e =
        (pcb, { e with last := now, rto := e.rto * 2 },
          [⟨e.seq, pcb.rcv.nxt, e.flg, pcb.rcv.wnd, e.data, pcb.loc, pcb.foreign⟩], 0)) ∧
    (∀ now pcb e, now - e.first < TCP_RETRANSMIT_DEADLINE * 1000000 →
      now ≤ e.last + e.rto →
      tcp_retransmit_queue_emit now pcb e = (pcb, e, [], 0)) ∧
    (∀ now pcb rest, pcb.state = TCP_PCB_STATE_FREE →
      tcp_retransmit_timer now (pcb :: rest) =
        (pcb :: (tcp_retransmit_timer now rest).1,
          (tcp_retransmit_timer now rest).2.1, (tcp_retransmit_timer now rest).2.2)) ∧
    (∀ now pcb rest, pcb.state ≠ TCP_PCB_STATE_FREE →
      tcp_retransmit_timer now (pcb :: rest) =
        ((tcp_retransmit_queue_emit_all now pcb).1 :: (tcp_retransmit_timer now rest).1,
          (tcp_retransmit_queue_emit_all now pcb).2.1 ++ (tcp_retransmit_timer now rest).2.1,
          (tcp_retransmit_queue_emit_all now pcb).2.2 + (tcp_retransmit_timer now rest).2.2)) := by
  refine ⟨?_, ?_, ?_, ?_, ?_⟩
  · intro now pcb e h
    rw [tcp_retransmit_queue_emit, if_pos]
    unfold TCP_RETRANSMIT_DEADLINE at *
    omega
  · intro now pcb e h1 h2
    rw [tcp_retransmit_queue_emit, if_neg, if_pos h2]
    unfold TCP_RETRANSMIT_DEADLINE at *
    omega
  · intro now pcb e h1 h2
    rw [tcp_retransmit_queue_emit, if_neg, if_neg (by omega)]
    unfold TCP_RETRANSMIT_DEADLINE at *
    omega
  · intro now pcb rest h
    simp [tcp_retransmit_timer, h]
  · intro now pcb rest h
    simp [tcp_retransmit_timer, h]

/-- Witness for `tcp_retransmit_emit_spec`: the deadline branch at
`now = 12 s`, the resend branch at `now = 300 ms`, the idle branch at
`now = 100 ms`, and the two sweep equations, all on the concrete
`c3pcb`/`c3entry`. -/
theorem tcp_retransmit_emit_spec_witness :
    tcp_retransmit_queue_emit 12000000 c3pcb c3entry =
      ({ c3pcb with state := TCP_PCB_STATE_CLOSED }, c3entry, [], 1) ∧
    tcp_retransmit_queue_emit 300000 c3pcb c3entry =
      (c3pcb, { c3entry with last := 300000, rto := 400000 },
        [⟨42, 77, 0x18, 10, [9], ⟨1, 2⟩, ⟨3, 4⟩⟩], 0) ∧
    tcp_retransmit_queue_emit 100000 c3pcb c3entry = (c3pcb, c3entry, [], 0) ∧
    tcp_retransmit_timer 0 [pcb0] = ([pcb0], [], 0) ∧
    tcp_retransmit_timer 100000 [c3pcb] =
      ([(tcp_retransmit_queue_emit_all 100000 c3pcb).1],
        (tcp_retransmit_queue_emit_all 100000 c3pcb).2.1,
        (tcp_retransmit_queue_emit_all 100000 c3pcb).2.2) := by
  refine ⟨?_, ?_, ?_, ?_, ?_⟩
  · exact tcp_retransmit_emit_spec.1 12000000 c3pcb c3entry (by decide)
  · have h := tcp_retransmit_emit_spec.2.1 300000 c3pcb c3entry (by decide) (by decide)
    simpa [c3entry, c3pcb, pcb0] using h
  · exact tcp_retransmit_emit_spec.2.2.1 100000 c3pcb c3entry (by decide) (by decide)
  · exact tcp_retransmit_emit_spec.2.2.2.1 0 pcb0 [] rfl
  · have h := tcp_retransmit_emit_spec.2.2.2.2 100000 c3pcb [] (by decide)
    simpa using h

/-- C3 counterexample: at `now = last + rto` exactly (200 ms) the entry is
NOT resent, although the claim demands a resend at `now ≥ last + rto`; and
when the 12 s deadline fires, the PCB is not released: the sweep leaves the
slot occupied in state CLOSED with its retransmission entry still queued. -/
theorem tcp_retransmit_boundary_cex :
    tcp_retransmit_queue_emit 200000 c3pcb c3entry = (c3pcb, c3entry, [], 0) ∧
    tcp_retransmit_timer 12000000 [c3pcb] =
      ([{ c3pcb with state := TCP_PCB_STATE_CLOSED }], [], 1) := by
  constructor
  · rfl
  · rfl

/-! ## C1: ACK processing in the synchronized states -/

/-- C1 (code bug, evaluated): processing the acceptable ACK 150 (segment
seq 50, window 500) on `c1pcb` (ESTABLISHED, `snd.una = 100`,
`snd.nxt = 200`, `snd.wl1 = snd.wl2 = 10`) advances `snd.una` to 150,
releases the retransmission entry with seq 100 and keeps the one with seq
160, and takes the window-update branch — but the source writes `snd.wl2`
twice (`src/tcp.c` lines 637-639): `snd.wl1` stays 10 instead of becoming
`seg.seq = 50`, while `snd.wl2` ends at `seg.ack = 150`. -/
theorem tcp_ack_wl1_double_write :
    (tcp_segment_arrives 0 0 (some c1pcb) ⟨50, 150, 0, 500, 0⟩ TCP_FLG_ACK [] ⟨1, 2⟩
        ⟨3, 4⟩).pcb.map
        (fun p => (p.snd.una, p.snd.wnd, p.snd.wl1, p.snd.wl2, p.queue.map TcpQueueEntry.seq))
      = some (150, 500, 10, 150, [160]) := by
  rfl

/-! ## C4: RST in SYN_SENT -/

/-- C4 (code bug, evaluated): a bare RST (no ACK) arriving in SYN_SENT is
NOT dropped: the release of the CLOSED PCB is unconditional in the source
(`src/tcp.c` lines 451-460; only the `errorf` is guarded by `acceptable`),
so the slot is freed (`pcb = none`) with one wakeup and no reset signal,
where the claim (and RFC 793) require the segment to be dropped with the
PCB left unchanged. -/
theorem tcp_synsent_rst_release_bug :
    tcp_segment_arrives 0 0 (some c4pcb) ⟨0, 0, 0, 0, 0⟩ TCP_FLG_RST [] ⟨1, 2⟩ ⟨3, 4⟩
      = ⟨none, [], 1, [], []⟩ := by
  rfl

/-! ## C10: segment-text copy bounds -/

/-- C10 (code bug, evaluated): the segment with seq 100 and 32 payload
bytes passes the acceptability check on `c10pcb` (`rcv.nxt = 100`,
`rcv.wnd = 8`) because only its START has to lie in the window, and reaches
the ESTABLISHED segment-text copy: the `memcpy` writes bytes
`[8, 8 + 32) = [8, 40)` of the 16-byte buffer (out of bounds:
`8 + 32 > 16`), and `rcv.wnd -= len` wraps the `uint16_t` window to
65512. -/
theorem tcp_established_text_overflow :
    (tcp_segment_arrives 0 0 (some c10pcb) c10seg TCP_FLG_ACK c10data ⟨1, 2⟩ ⟨3, 4⟩).copies
      = [(8, 32)] ∧
    (tcp_segment_arrives 0 0 (some c10pcb) c10seg TCP_FLG_ACK c10data ⟨1, 2⟩ ⟨3, 4⟩).pcb.map
      (fun p => (p.rcv.wnd, p.buf.length)) = some (65512, 40) ∧
    16 < 8 + 32 := by
  refine ⟨rfl, rfl, by norm_num⟩

/-! ## Machine-arithmetic helper lemmas -/

theorem sub64_eq_of_le {a b : Nat} (hb : b ≤ a) (ha : a < 18446744073709551616) :
    sub64 a b = a - b := by
  unfold sub64
  omega

theorem sub32_eq_of_le {a b : Nat} (hb : b ≤ a) (ha : a < 4294967296) :
    sub32 a b = a - b := by
  unfold sub32
  omega

theorem add16_eq_of_lt {a b : Nat} (h : a + b < 65536) : add16 a b = a + b := by
  unfold add16
  omega

theorem add32_eq_of_lt {a b : Nat} (h : a + b < 4294967296) : add32 a b = a + b := by
  unfold add32
  omega

/-- The `memmove` compaction: the pending region of the compacted buffer is
the old pending region with the copied-out prefix dropped. -/
theorem take_append_drop_compaction (l : List Nat) (len r : Nat) (h1 : len ≤ r)
    (h2 : r ≤ l.length) :
    ((l.drop len).take (r - len) ++ l.drop (r - len)).take (r - len) = (l.take r).drop len := by
  have hlen : ((l.drop len).take (r - len)).length = r - len := by
    simp [List.length_take, List.length_drop]
    omega
  rw [List.take_append_of_le_length (by omega)]
  rw [List.take_take]
  rw [List.drop_take]
  congr 1
  omega

/-! ## C6: tcp_receive -/

/-- C6: `tcp_receive` on a valid handle in ESTABLISHED with buffered data
(`buffer_size - rcv.wnd > 0`) copies `min(size, buffer_size - rcv.wnd)`
bytes from the front of the receive buffer to the caller, compacts the
remaining buffered bytes to the front, grows `rcv.wnd` by the number of
bytes copied and returns that number; with an empty buffer it parks (and
returns INTERRUPTED if the sleep is interrupted); in CLOSE_WAIT with an
empty receive buffer it returns 0 (EOF); in any other state it returns an
error. -/
theorem tcp_receive_spec :
    (∀ fuel oracle pcb size, pcb.state = TCP_PCB_STATE_ESTABLISHED →
      pcb.rcv.wnd < 16 → pcb.buf.length = 16 →
      (tcp_receive size (fuel + 1) oracle pcb).res = .ok (min size (16 - pcb.rcv.wnd)) ∧
      (tcp_receive size (fuel + 1) oracle pcb).out =
        pcb.buf.take (min size (16 - pcb.rcv.wnd)) ∧
      (tcp_receive size (fuel + 1) oracle pcb).pcb.rcv.wnd =
        pcb.rcv.wnd + min size (16 - pcb.rcv.wnd) ∧
      (tcp_receive size (fuel + 1) oracle pcb).pcb.buf.take
          ((16 - pcb.rcv.wnd) - min size (16 - pcb.rcv.wnd)) =
        (pcb.buf.take (16 - pcb.rcv.wnd)).drop (min size (16 - pcb.rcv.wnd))) ∧
    (∀ fuel oracle pcb size, pcb.state = TCP_PCB_STATE_ESTABLISHED → pcb.rcv.wnd = 16 →
      tcp_receive size (fuel + 1) (.intr :: oracle) pcb = ⟨.eintr, pcb, []⟩ ∧
      tcp_receive size (fuel + 1) [] pcb = ⟨.blocked, pcb, []⟩) ∧
    (∀ fuel oracle pcb size, pcb.state = TCP_PCB_STATE_CLOSE_WAIT → pcb.rcv.wnd = 16 →
      tcp_receive size (fuel + 1) oracle pcb = ⟨.ok 0, pcb, []⟩) ∧
    (∀ fuel oracle pcb size, pcb.state ≠ TCP_PCB_STATE_ESTABLISHED →
      pcb.state ≠ TCP_PCB_STATE_CLOSE_WAIT →
      tcp_receive size (fuel + 1) oracle pcb = ⟨.err, pcb, []⟩) := by
  refine ⟨?_, ?_, ?_, ?_⟩
  · intro fuel oracle pcb size h1 h2 h3
    have hr : sub64 16 pcb.rcv.wnd = 16 - pcb.rcv.wnd :=
      sub64_eq_of_le (by omega) (by norm_num)
    have heq : tcp_receive size (fuel + 1) oracle pcb =
        tcp_receive_copy pcb (16 - pcb.rcv.wnd) size := by
      simp only [tcp_receive, h1, if_true, hr]
      rw [if_neg (by omega)]
    have hminle : min size (16 - pcb.rcv.wnd) ≤ 16 - pcb.rcv.wnd := min_le_right _ _
    rw [heq]
    unfold tcp_receive_copy
    refine ⟨rfl, rfl, ?_, ?_⟩
    · exact add16_eq_of_lt (by omega)
    · exact take_append_drop_compaction pcb.buf _ _ hminle (by omega)
  · intro fuel oracle pcb size h1 h2
    have hr : sub64 16 pcb.rcv.wnd = 0 := by
      rw [h2]
      rfl
    constructor
    · simp only [tcp_receive, h1, if_true, hr, if_pos rfl]
    · simp only [tcp_receive, h1, if_true, hr, if_pos rfl]
  · intro fuel oracle pcb size h1 h2
    have hr : sub64 16 pcb.rcv.wnd = 0 := by
      rw [h2]
      rfl
    simp only [tcp_receive, h1, hr]
    norm_num [TCP_PCB_STATE_CLOSE_WAIT, TCP_PCB_STATE_ESTABLISHED]
  · intro fuel oracle pcb size h1 h2
    simp only [tcp_receive, h1, h2, if_false]

/-- Witness for `tcp_receive_spec` on concrete inputs: copying 4 of the 6
buffered bytes of `c6pcb`, parking on an empty buffer, EOF in CLOSE_WAIT,
and the error for a LISTEN PCB. -/
theorem tcp_receive_spec_witness :
    (tcp_receive 4 1 [] c6pcb).res = .ok 4 ∧
    (tcp_receive 4 1 [] c6pcb).out = [1, 2, 3, 4] ∧
    (tcp_receive 4 1 [] c6pcb).pcb.rcv.wnd = 14 ∧
    (tcp_receive 4 1 [] c6pcb).pcb.buf.take 2 = [5, 6] ∧
    tcp_receive 4 1 [.intr] { c6pcb with rcv := ⟨0, 16, 0⟩ } =
      ⟨.eintr, { c6pcb with rcv := ⟨0, 16, 0⟩ }, []⟩ ∧
    tcp_receive 4 1 [] { c6pcb with state := TCP_PCB_STATE_CLOSE_WAIT, rcv := ⟨0, 16, 0⟩ } =
      ⟨.ok 0, { c6pcb with state := TCP_PCB_STATE_CLOSE_WAIT, rcv := ⟨0, 16, 0⟩ }, []⟩ ∧
    tcp_receive 4 1 [] { c6pcb with state := TCP_PCB_STATE_LISTEN } =
      ⟨.err, { c6pcb with state := TCP_PCB_STATE_LISTEN }, []⟩ := by
  have h1 := tcp_receive_spec.1 0 [] c6pcb 4 rfl (by decide) (by decide)
  have h2 := (tcp_receive_spec.2.1 0 [] { c6pcb with rcv := ⟨0, 16, 0⟩ } 4 rfl rfl).1
  have h3 := tcp_receive_spec.2.2.1 0 []
    { c6pcb with state := TCP_PCB_STATE_CLOSE_WAIT, rcv := ⟨0, 16, 0⟩ } 4 rfl rfl
  have h4 := tcp_receive_spec.2.2.2 0 [] { c6pcb with state := TCP_PCB_STATE_LISTEN } 4
    (by decide) (by decide)
  refine ⟨?_, ?_, ?_, ?_, h2, h3, h4⟩
  · simpa using h1.1
  · simpa [c6pcb] using h1.2.1
  · simpa [c6pcb] using h1.2.2.1
  · simpa [c6pcb] using h1.2.2.2

/-! ## C5: tcp_send -/

/-- `tcp_output` only appends to the retransmission queue: every other PCB
field is untouched, and the emitted segment carries the requested flags and
payload with the PCB's current `rcv.nxt`/`rcv.wnd`. -/
theorem tcp_output_fst (now : Nat) (pcb : TcpPcb) (flg : Nat) (data : List Nat) :
    ((tcp_output now pcb flg data).1).snd = pcb.snd ∧
    ((tcp_output now pcb flg data).1).state = pcb.state ∧
    (tcp_output now pcb flg data).2.flg = flg ∧
    (tcp_output now pcb flg data).2.payload = data := by
  refine ⟨?_, ?_, ?_, ?_⟩ <;>
    simp only [tcp_output, tcp_retransmit_queue_add] <;>
    first
      | (split <;> rfl)
      | rfl

/-- One send step of `tcp_send_loop` when the window has room. -/
theorem tcp_send_loop_step (now mss fuel : Nat) (data : List Nat) (oracle : List SendEv)
    (pcb : TcpPcb) (sent : Nat) (segs : List OutSeg) (parks : Nat) (slen : Nat)
    (h1 : pcb.state = TCP_PCB_STATE_ESTABLISHED ∨ pcb.state = TCP_PCB_STATE_CLOSE_WAIT)
    (h2 : sent < data.length)
    (hcap : ¬ sub32 pcb.snd.wnd (sub32 pcb.snd.nxt pcb.snd.una) = 0)
    (hslen : slen = min (min mss (data.length - sent))
      (sub32 pcb.snd.wnd (sub32 pcb.snd.nxt pcb.snd.una))) :
    tcp_send_loop now mss data (fuel + 1) oracle pcb sent segs parks =
      tcp_send_loop now mss data fuel oracle
        { (tcp_output now pcb (TCP_FLG_ACK ||| TCP_FLG_PSH) ((data.drop sent).take slen)).1 with
          snd := { (tcp_output now pcb (TCP_FLG_ACK ||| TCP_FLG_PSH)
              ((data.drop sent).take slen)).1.snd with
            nxt := add32 (tcp_output now pcb (TCP_FLG_ACK ||| TCP_FLG_PSH)
              ((data.drop sent).take slen)).1.snd.nxt slen } }
        (sent + slen)
        (segs ++ [(tcp_output now pcb (TCP_FLG_ACK ||| TCP_FLG_PSH)
          ((data.drop sent).take slen)).2])
        parks := by
  subst hslen
  simp only [tcp_send_loop]
  rw [if_pos h1, if_pos h2, if_neg hcap]

/-- The park step of `tcp_send_loop` when the window is exhausted. -/
theorem tcp_send_loop_park (now mss fuel : Nat) (data : List Nat) (oracle : List SendEv)
    (pcb : TcpPcb) (sent : Nat) (segs : List OutSeg) (parks : Nat)
    (h1 : pcb.state = TCP_PCB_STATE_ESTABLISHED ∨ pcb.state = TCP_PCB_STATE_CLOSE_WAIT)
    (h2 : sent < data.length)
    (hcap : sub32 pcb.snd.wnd (sub32 pcb.snd.nxt pcb.snd.una) = 0) :
    tcp_send_loop now mss data (fuel + 1) oracle pcb sent segs parks =
      (match oracle with
       | [] => ⟨.blocked, pcb, segs, parks + 1⟩
       | .intr :: _ =>
         if sent = 0 then ⟨.eintr, pcb, segs, parks + 1⟩
         else ⟨.ok sent, pcb, segs, parks + 1⟩
       | .wake u w :: rest =>
         tcp_send_loop now mss data fuel rest
           { pcb with snd := { pcb.snd with una := u, wnd := w } } sent segs (parks + 1)) := by
  simp only [tcp_send_loop]
  rw [if_pos h1, if_pos h2, if_pos hcap]

/-- The exit step of `tcp_send_loop` once all of `data` is accepted. -/
theorem tcp_send_loop_done (now mss fuel : Nat) (data : List Nat) (oracle : List SendEv)
    (pcb : TcpPcb) (sent : Nat) (segs : List OutSeg) (parks : Nat)
    (h1 : pcb.state = TCP_PCB_STATE_ESTABLISHED ∨ pcb.state = TCP_PCB_STATE_CLOSE_WAIT)
    (h2 : ¬ sent < data.length) :
    tcp_send_loop now mss data (fuel + 1) oracle pcb sent segs parks =
      ⟨.ok sent, pcb, segs, parks⟩ := by
  simp only [tcp_send_loop]
  rw [if_pos h1, if_neg h2]

/-- The corresponding step equations of the claim-level loop. -/
theorem claim_loop_send (mss : Nat) (data : List Nat) (fuel : Nat) (oracle : List SendEv)
    (st : SendSpecSt) (sent : Nat) (outs : List (List Nat)) (parks : Nat) (slen : Nat)
    (h : sent < data.length) (hcap : ¬ st.wnd - (st.nxt - st.una) = 0)
    (hslen : slen = min (min mss (data.length - sent)) (st.wnd - (st.nxt - st.una))) :
    tcp_send_claim_loop mss data (fuel + 1) oracle st sent outs parks =
      tcp_send_claim_loop mss data fuel oracle ⟨st.una, st.nxt + slen, st.wnd⟩ (sent + slen)
        (outs ++ [(data.drop sent).take slen]) parks := by
  subst hslen
  simp only [tcp_send_claim_loop]
  rw [if_pos h, if_neg hcap]

theorem claim_loop_park (mss : Nat) (data : List Nat) (fuel : Nat) (oracle : List SendEv)
    (st : SendSpecSt) (sent : Nat) (outs : List (List Nat)) (parks : Nat)
    (h : sent < data.length) (hcap : st.wnd - (st.nxt - st.una) = 0) :
    tcp_send_claim_loop mss data (fuel + 1) oracle st sent outs parks =
      (match oracle with
       | [] => (.blocked, st, outs, parks + 1)
       | .intr :: _ =>
         if sent = 0 then (.eintr, st, outs, parks + 1)
         else (.ok sent, st, outs, parks + 1)
       | .wake u w :: rest =>
         tcp_send_claim_loop mss data fuel rest ⟨u, st.nxt, w⟩ sent outs (parks + 1)) := by
  simp only [tcp_send_claim_loop]
  rw [if_pos h, if_pos hcap]

theorem claim_loop_done (mss : Nat) (data : List Nat) (fuel : Nat) (oracle : List SendEv)
    (st : SendSpecSt) (sent : Nat) (outs : List (List Nat)) (parks : Nat)
    (h : ¬ sent < data.length) :
    tcp_send_claim_loop mss data (fuel + 1) oracle st sent outs parks =
      (.ok sent, st, outs, parks) := by
  simp only [tcp_send_claim_loop]
  rw [if_neg h]

/-- `tcp_send_loop` refines the loop of the claim for EVERY oracle and
fuel: as long as the send variables are well formed (`una ≤ nxt`,
`nxt - una ≤ wnd`, 16-bit window, no 32-bit sequence wrap over this call)
and each wakeup delivers a well-formed window update, the run of the
embedded loop produces, observation for observation, exactly what the
claim's plain-arithmetic loop produces — including segments truncated to
`cap`, parks in mid-transfer, and the partial count reported after an
interrupted park — and every emitted segment carries ACK|PSH. -/
theorem tcp_send_loop_refines (now mss : Nat) (data : List Nat) (fuel : Nat) :
    ∀ (oracle : List SendEv) (pcb : TcpPcb) (sent : Nat) (segs : List OutSeg) (parks : Nat),
      (pcb.state = TCP_PCB_STATE_ESTABLISHED ∨ pcb.state = TCP_PCB_STATE_CLOSE_WAIT) →
      sent ≤ data.length →
      pcb.snd.una ≤ pcb.snd.nxt →
      pcb.snd.nxt - pcb.snd.una ≤ pcb.snd.wnd →
      pcb.snd.wnd < 65536 →
      pcb.snd.nxt + (data.length - sent) < 4294967296 →
      (∀ u w, SendEv.wake u w ∈ oracle →
        w < 65536 ∧ u ≤ pcb.snd.nxt ∧ pcb.snd.nxt + (data.length - sent) ≤ u + w) →
      sendObs (tcp_send_loop now mss data fuel oracle pcb sent segs parks) =
        claimObs (tcp_send_claim_loop mss data fuel oracle
          ⟨pcb.snd.una, pcb.snd.nxt, pcb.snd.wnd⟩ sent (segs.map OutSeg.payload) parks) ∧
      (∀ s ∈ (tcp_send_loop now mss data fuel oracle pcb sent segs parks).segs,
        s ∈ segs ∨ s.flg = TCP_FLG_ACK ||| TCP_FLG_PSH) := by
  induction fuel with
  | zero =>
    intro oracle pcb sent segs parks h1 h2 h3 h4 h5 h6 h7
    exact ⟨rfl, fun s hs => Or.inl hs⟩
  | succ fuel ih =>
    intro oracle pcb sent segs parks h1 h2 h3 h4 h5 h6 h7
    by_cases hs : sent < data.length
    · have hnxt32 : pcb.snd.nxt < 4294967296 := by omega
      have h32 : sub32 pcb.snd.nxt pcb.snd.una = pcb.snd.nxt - pcb.snd.una :=
        sub32_eq_of_le h3 hnxt32
      have hcapeq : sub32 pcb.snd.wnd (sub32 pcb.snd.nxt pcb.snd.una)
          = pcb.snd.wnd - (pcb.snd.nxt - pcb.snd.una) := by
        rw [h32]
        exact sub32_eq_of_le h4 (by omega)
      by_cases hc : pcb.snd.wnd - (pcb.snd.nxt - pcb.snd.una) = 0
      · rw [tcp_send_loop_park now mss fuel data oracle pcb sent segs parks h1 hs
          (by rw [hcapeq]; exact hc)]
        rw [claim_loop_park mss data fuel oracle ⟨pcb.snd.una, pcb.snd.nxt, pcb.snd.wnd⟩
          sent (segs.map OutSeg.payload) parks hs hc]
        cases oracle with
        | nil => exact ⟨rfl, fun s hs2 => Or.inl hs2⟩
        | cons ev rest =>
          cases ev with
          | intr =>
            by_cases hzero : sent = 0
            · simp only [hzero, if_pos rfl]
              exact ⟨rfl, fun s hs2 => Or.inl hs2⟩
            · simp only [if_neg hzero]
              exact ⟨rfl, fun s hs2 => Or.inl hs2⟩
          | wake u w =>
            obtain ⟨hw1, hw2, hw3⟩ := h7 u w (List.mem_cons_self _ _)
            exact ih rest { pcb with snd := { pcb.snd with una := u, wnd := w } } sent segs
              (parks + 1) h1 h2 hw2 (by simp only []; omega) hw1 h6
              (fun u2 w2 hm => by
                obtain ⟨a, b, c⟩ := h7 u2 w2 (List.mem_cons_of_mem _ hm)
                exact ⟨a, b, c⟩)
      · rw [tcp_send_loop_step now mss fuel data oracle pcb sent segs parks
          (min (min mss (data.length - sent)) (pcb.snd.wnd - (pcb.snd.nxt - pcb.snd.una)))
          h1 hs (by rw [hcapeq]; exact hc) (by rw [hcapeq])]
        rw [claim_loop_send mss data fuel oracle ⟨pcb.snd.una, pcb.snd.nxt, pcb.snd.wnd⟩
          sent (segs.map OutSeg.payload) parks
          (min (min mss (data.length - sent)) (pcb.snd.wnd - (pcb.snd.nxt - pcb.snd.una)))
          hs hc rfl]
        set slen := min (min mss (data.length - sent))
          (pcb.snd.wnd - (pcb.snd.nxt - pcb.snd.una)) with hslendef
        have hslenle : slen ≤ data.length - sent := by
          rw [hslendef]
          omega
        have hslencap : slen ≤ pcb.snd.wnd - (pcb.snd.nxt - pcb.snd.una) := by
          rw [hslendef]
          omega
        set pl := (data.drop sent).take slen with hpl
        set r := tcp_output now pcb (TCP_FLG_ACK ||| TCP_FLG_PSH) pl with hr
        have hout := tcp_output_fst now pcb (TCP_FLG_ACK ||| TCP_FLG_PSH) pl
        rw [← hr] at hout
        set pcb2 := { r.1 with snd := { r.1.snd with nxt := add32 r.1.snd.nxt slen } }
          with hpcb2
        have huna2 : pcb2.snd.una = pcb.snd.una := by
          rw [hpcb2]
          show r.1.snd.una = pcb.snd.una
          rw [hout.1]
        have hwnd2 : pcb2.snd.wnd = pcb.snd.wnd := by
          rw [hpcb2]
          show r.1.snd.wnd = pcb.snd.wnd
          rw [hout.1]
        have hnxt2 : pcb2.snd.nxt = pcb.snd.nxt + slen := by
          rw [hpcb2]
          show add32 r.1.snd.nxt slen = pcb.snd.nxt + slen
          rw [hout.1]
          exact add32_eq_of_lt (by omega)
        have hstate2 : pcb2.state = pcb.state := by
          rw [hpcb2]
          show r.1.state = pcb.state
          exact hout.2.1
        obtain ⟨ihA, ihB⟩ := ih oracle pcb2 (sent + slen) (segs ++ [r.2]) parks
          (by rw [hstate2]; exact h1)
          (by omega)
          (by rw [huna2, hnxt2]; omega)
          (by rw [huna2, hnxt2, hwnd2]; omega)
          (by rw [hwnd2]; exact h5)
          (by rw [hnxt2]; omega)
          (fun u2 w2 hm => by
            obtain ⟨a, b, c⟩ := h7 u2 w2 hm
            exact ⟨a, by rw [hnxt2]; omega, by rw [hnxt2]; omega⟩)
        have hmap : (segs ++ [r.2]).map OutSeg.payload = segs.map OutSeg.payload ++ [pl] := by
          simp [hout.2.2.2]
        have hco : (⟨pcb2.snd.una, pcb2.snd.nxt, pcb2.snd.wnd⟩ : SendSpecSt)
            = ⟨pcb.snd.una, pcb.snd.nxt + slen, pcb.snd.wnd⟩ := by
          rw [huna2, hnxt2, hwnd2]
        rw [hmap, hco] at ihA
        refine ⟨ihA, ?_⟩
        intro s hs2
        rcases ihB s hs2 with hmem | hflg
        · rcases List.mem_append.mp hmem with hmem2 | hmem2
          · exact Or.inl hmem2
          · right
            rw [List.mem_singleton.mp hmem2]
            exact hout.2.2.1
        · exact Or.inr hflg
    · rw [tcp_send_loop_done now mss fuel data oracle pcb sent segs parks h1 hs]
      rw [claim_loop_done mss data fuel oracle ⟨pcb.snd.una, pcb.snd.nxt, pcb.snd.wnd⟩
        sent (segs.map OutSeg.payload) parks hs]
      exact ⟨rfl, fun s hs2 => Or.inl hs2⟩

/-- C5: `tcp_send` on a valid handle in ESTABLISHED or CLOSE_WAIT loops
over the data exactly as the claim describes, for EVERY oracle of sleep
outcomes and every fuel: its observable run (outcome, final send
variables, the sequence of transmitted payloads, the park count) equals
that of the claim-level loop with `cap = snd.wnd - (snd.nxt - snd.una)`
recomputed each iteration — it parks exactly when `cap` is 0 (an
interrupted park returns the bytes accepted so far, INTERRUPTED if none),
otherwise transmits `min(mss, remaining, cap)` bytes, advancing `snd.nxt`
by that amount, and returns the total accepted — with every segment
flagged ACK|PSH; in any other state it returns an error.  The hypotheses
only ask for well-formed send variables and well-formed wakeup updates, so
the `cap`-limited regime (`0 < cap < min(mss, remaining)`), mid-transfer
parks and partial-progress returns are all covered. -/
theorem tcp_send_spec :
    (∀ (now fuel : Nat) (mtu : Option Nat) (oracle : List SendEv) (pcb : TcpPcb)
        (data : List Nat),
      pcb.state ≠ TCP_PCB_STATE_ESTABLISHED → pcb.state ≠ TCP_PCB_STATE_CLOSE_WAIT →
      tcp_send now fuel mtu oracle pcb data = ⟨.err, pcb, [], 0⟩) ∧
    (∀ (now fuel mtu : Nat) (oracle : List SendEv) (pcb : TcpPcb) (data : List Nat),
      (pcb.state = TCP_PCB_STATE_ESTABLISHED ∨ pcb.state = TCP_PCB_STATE_CLOSE_WAIT) →
      pcb.snd.una ≤ pcb.snd.nxt →
      pcb.snd.nxt - pcb.snd.una ≤ pcb.snd.wnd →
      pcb.snd.wnd < 65536 →
      pcb.snd.nxt + data.length < 4294967296 →
      40 ≤ mtu → mtu < 18446744073709551616 →
      (∀ u w, SendEv.wake u w ∈ oracle →
        w < 65536 ∧ u ≤ pcb.snd.nxt ∧ pcb.snd.nxt + data.length ≤ u + w) →
      sendObs (tcp_send now fuel (some mtu) oracle pcb data) =
        claimObs (tcp_send_claim_loop (mtu - 40) data fuel oracle
          ⟨pcb.snd.una, pcb.snd.nxt, pcb.snd.wnd⟩ 0 [] 0) ∧
      (∀ s ∈ (tcp_send now fuel (some mtu) oracle pcb data).segs,
        s.flg = TCP_FLG_ACK ||| TCP_FLG_PSH)) := by
  constructor
  · intro now fuel mtu oracle pcb data h1 h2
    simp only [tcp_send]
    rw [if_neg (fun h => h.elim h1 h2)]
  · intro now fuel mtu oracle pcb data h1 h3 h4 h5 h6 hmtu1 hmtu2 h7
    have hmss : sub64 mtu 40 = mtu - 40 := sub64_eq_of_le (by omega) hmtu2
    simp only [tcp_send, if_pos h1, hmss]
    obtain ⟨hA, hB⟩ := tcp_send_loop_refines now (mtu - 40) data fuel oracle pcb 0 [] 0 h1
      (Nat.zero_le _) h3 h4 h5 h6 h7
    refine ⟨hA, ?_⟩
    intro s hs
    rcases hB s hs with hmem | hflg
    · exact absurd hmem (List.not_mem_nil s)
    · exact hflg

/-- Witness for `tcp_send_spec` on concrete inputs: the error return on a
LISTEN PCB; an interrupted park on the full window of `c5fullpcb`; and on
`c5cappcb` (5 bytes of window room, mss 60, 8 bytes of data) a first
segment truncated to `cap = 5` bytes followed by a mid-transfer park —
returning the partial count 5 when the park is interrupted, and finishing
with a 3-byte segment after a window-update wakeup. -/
theorem tcp_send_spec_witness :
    tcp_send 0 1 (some 100) [] { c5pcb with state := TCP_PCB_STATE_LISTEN } [1]
      = ⟨.err, { c5pcb with state := TCP_PCB_STATE_LISTEN }, [], 0⟩ ∧
    sendObs (tcp_send 0 3 (some 100) [.intr] c5fullpcb [1])
      = (.eintr, 10, 30, 20, [], 1) ∧
    sendObs (tcp_send 0 9 (some 100) [.intr] c5cappcb [1, 2, 3, 4, 5, 6, 7, 8])
      = (.ok 5, 0, 5, 5, [[1, 2, 3, 4, 5]], 1) ∧
    sendObs (tcp_send 0 9 (some 100) [.wake 0 100] c5cappcb [1, 2, 3, 4, 5, 6, 7, 8])
      = (.ok 8, 0, 8, 100, [[1, 2, 3, 4, 5], [6, 7, 8]], 1) ∧
    (tcp_send 0 9 (some 100) [.wake 0 100] c5cappcb [1, 2, 3, 4, 5, 6, 7, 8]).segs.map
      OutSeg.flg = [24, 24] := by
  have hA := tcp_send_spec.1 0 1 (some 100) []
    { c5pcb with state := TCP_PCB_STATE_LISTEN } [1] (by decide) (by decide)
  have hB := (tcp_send_spec.2 0 3 100 [.intr] c5fullpcb [1] (Or.inl rfl) (by decide)
    (by decide) (by decide) (by decide) (by decide) (by decide)
    (fun u w hm => by simp at hm)).1
  have hC := (tcp_send_spec.2 0 9 100 [.intr] c5cappcb [1, 2, 3, 4, 5, 6, 7, 8] (Or.inl rfl)
    (by decide) (by decide) (by decide) (by decide) (by decide) (by decide)
    (fun u w hm => by simp at hm)).1
  have hD := (tcp_send_spec.2 0 9 100 [.wake 0 100] c5cappcb [1, 2, 3, 4, 5, 6, 7, 8]
    (Or.inl rfl) (by decide) (by decide) (by decide) (by decide) (by decide) (by decide)
    (fun u w hm => by
      simp only [List.mem_singleton, SendEv.wake.injEq] at hm
      obtain ⟨hu, hw⟩ := hm
      subst hu
      subst hw
      refine ⟨by decide, by decide, by decide⟩)).1
  exact ⟨hA, hB.trans (by rfl), hC.trans (by rfl), hD.trans (by rfl), by rfl⟩

end Mymicrops
